import Mathlib

/-
  Verification development for the geometric shape-recognition and
  derived-construction engine of src/agent/tools/acad.py.

  The Python module computes over IEEE floats; here the arithmetic is
  idealized over the reals.  Pure helpers are embedded one-to-one
  (math.hypot/math.acos/math.degrees become Real.sqrt/Real.arccos and
  multiplication by 180/pi); AutoCAD COM entities become an explicit
  Entity inductive, and drawing calls are modelled by the list of point
  lists they emit.  Python run-time errors cannot occur in the embedded
  fragment (every access is total), matching the module's guard style.
-/

noncomputable section

open Classical

abbrev Point : Type := ℝ × ℝ

/- Module-level default tolerances (acad.py lines 13-16). -/

def _POS_TOL : ℝ := 1e-6

def _ANG_TOL_DEG : ℝ := 1.0

def _REL_LEN_TOL : ℝ := 0.02

def _MIN_SIDE : ℝ := 1e-6

/- _dist (acad.py line 54): math.hypot of the coordinate differences. -/

def _dist (p q : Point) : ℝ := Real.sqrt ((p.1 - q.1) ^ 2 + (p.2 - q.2) ^ 2)

/- _near (acad.py lines 57-62): absolute test first, then the relative
   test against max(abs a, abs b, abs_tol). -/

def _near (a b rel_tol abs_tol : ℝ) : Prop :=
  if |a - b| ≤ abs_tol then True
  else |a - b| / max (max |a| |b|) abs_tol ≤ rel_tol

/- Python `x or 1.0` for a float x: yields 1.0 exactly when x == 0. -/

def pyOrOne (x : ℝ) : ℝ := if x = 0 then 1 else x

/- _angle_deg (acad.py lines 64-73): angle ABC in degrees via the
   normalized dot product, clamped to [-1, 1] before acos. -/

def _angle_deg (a b c : Point) : ℝ :=
  let v1 : Point := (a.1 - b.1, a.2 - b.2)
  let v2 : Point := (c.1 - b.1, c.2 - b.2)
  let n1 := pyOrOne (Real.sqrt (v1.1 ^ 2 + v1.2 ^ 2))
  let n2 := pyOrOne (Real.sqrt (v2.1 ^ 2 + v2.2 ^ 2))
  let w1 : Point := (v1.1 / n1, v1.2 / n1)
  let w2 : Point := (v2.1 / n2, v2.2 / n2)
  let dot := max (-1) (min 1 (w1.1 * w2.1 + w1.2 * w2.2))
  Real.arccos dot * (180 / Real.pi)

/- Cyclic cross products of the shoelace loop (acad.py lines 87-96 and
   104-114): index i is paired with index (i+1) mod n. -/

def crossAt (pts : List Point) (i : ℕ) : ℝ :=
  (pts.getD i (0, 0)).1 * (pts.getD ((i + 1) % pts.length) (0, 0)).2
    - (pts.getD ((i + 1) % pts.length) (0, 0)).1 * (pts.getD i (0, 0)).2

def shoelace (pts : List Point) : ℝ :=
  ((List.range pts.length).map (crossAt pts)).sum

/- _poly_area_xy (acad.py lines 87-96). -/

def _poly_area_xy (pts : List Point) : ℝ :=
  if pts.length < 3 then 0 else |shoelace pts| * 0.5

/- The centroid numerators of acad.py lines 104-114. -/

def cxNum (pts : List Point) : ℝ :=
  ((List.range pts.length).map (fun i =>
    ((pts.getD i (0, 0)).1 + (pts.getD ((i + 1) % pts.length) (0, 0)).1) * crossAt pts i)).sum

def cyNum (pts : List Point) : ℝ :=
  ((List.range pts.length).map (fun i =>
    ((pts.getD i (0, 0)).2 + (pts.getD ((i + 1) % pts.length) (0, 0)).2) * crossAt pts i)).sum

/- _centroid (acad.py lines 98-122): arithmetic mean for fewer than 3
   points (dividing by max 1 n), otherwise the area-weighted centroid,
   falling back to the plain vertex mean when the signed area is within
   _POS_TOL of zero. -/

def _centroid (pts : List Point) : Point :=
  if pts.length < 3 then
    ((pts.map Prod.fst).sum / ((max 1 pts.length : ℕ) : ℝ),
     (pts.map Prod.snd).sum / ((max 1 pts.length : ℕ) : ℝ))
  else
    let A := shoelace pts / 2
    if |A| ≤ _POS_TOL then
      ((pts.map Prod.fst).sum / (pts.length : ℝ), (pts.map Prod.snd).sum / (pts.length : ℝ))
    else
      (cxNum pts / (6 * A), cyNum pts / (6 * A))

/- Spec-side formulas for claim C6 (spec section 4.2): the arithmetic
   mean of the vertices and the standard area-weighted centroid. -/

def signedArea (pts : List Point) : ℝ := shoelace pts / 2

def ptsMean (pts : List Point) : Point :=
  ((pts.map Prod.fst).sum / (pts.length : ℝ), (pts.map Prod.snd).sum / (pts.length : ℝ))

def weightedCentroid (pts : List Point) : Point :=
  (cxNum pts / (6 * signedArea pts), cyNum pts / (6 * signedArea pts))

/- Python round() (banker's rounding, round half to even), idealized
   over the reals; used by the loop assembler's endpoint quantizer. -/

def pyRound (x : ℝ) : ℤ :=
  if Int.fract x < 1 / 2 then ⌊x⌋
  else if 1 / 2 < Int.fract x then ⌊x⌋ + 1
  else if Even ⌊x⌋ then ⌊x⌋ else ⌊x⌋ + 1

/- key_pt (acad.py lines 514-515): quantize a point to the pos_tol grid. -/

def key_pt (pos_tol : ℝ) (p : Point) : Point :=
  ((pyRound (p.1 / pos_tol) : ℝ) * pos_tol, (pyRound (p.2 / pos_tol) : ℝ) * pos_tol)

/- The four loop-order side lengths and interior angles used by the
   classifiers (acad.py lines 132-137 and 145-150). -/

def sidesOf (v0 v1 v2 v3 : Point) : List ℝ :=
  [_dist v0 v1, _dist v1 v2, _dist v2 v3, _dist v3 v0]

def angsOf (v0 v1 v2 v3 : Point) : List ℝ :=
  [_angle_deg v3 v0 v1, _angle_deg v0 v1 v2, _angle_deg v1 v2 v3, _angle_deg v2 v3 v0]

/- _is_square_vertices (acad.py lines 124-153), written as the
   conjunction of its guard chain: 4 vertices, no side below min_side,
   every side near the mean side, every angle within ang_tol of 90. -/

def _is_square_vertices (verts : List Point) (ang_tol_deg rel_len_tol min_side : ℝ) : Prop :=
  verts.length = 4 ∧
  (∀ sd ∈ sidesOf (verts.getD 0 (0, 0)) (verts.getD 1 (0, 0)) (verts.getD 2 (0, 0))
      (verts.getD 3 (0, 0)), ¬ sd < min_side) ∧
  (∀ sd ∈ sidesOf (verts.getD 0 (0, 0)) (verts.getD 1 (0, 0)) (verts.getD 2 (0, 0))
      (verts.getD 3 (0, 0)),
    _near sd ((sidesOf (verts.getD 0 (0, 0)) (verts.getD 1 (0, 0)) (verts.getD 2 (0, 0))
      (verts.getD 3 (0, 0))).sum / 4) rel_len_tol _POS_TOL) ∧
  (∀ ag ∈ angsOf (verts.getD 0 (0, 0)) (verts.getD 1 (0, 0)) (verts.getD 2 (0, 0))
      (verts.getD 3 (0, 0)), ¬ |ag - 90| > ang_tol_deg)

/- _is_rectangle_vertices (acad.py lines 155-179): right angles plus
   opposite sides near-equal (sides 0 vs 2 and 1 vs 3). -/

def _is_rectangle_vertices (verts : List Point) (ang_tol_deg rel_len_tol min_side : ℝ) : Prop :=
  verts.length = 4 ∧
  (∀ sd ∈ sidesOf (verts.getD 0 (0, 0)) (verts.getD 1 (0, 0)) (verts.getD 2 (0, 0))
      (verts.getD 3 (0, 0)), ¬ sd < min_side) ∧
  (∀ ag ∈ angsOf (verts.getD 0 (0, 0)) (verts.getD 1 (0, 0)) (verts.getD 2 (0, 0))
      (verts.getD 3 (0, 0)), ¬ |ag - 90| > ang_tol_deg) ∧
  _near (_dist (verts.getD 0 (0, 0)) (verts.getD 1 (0, 0)))
    (_dist (verts.getD 2 (0, 0)) (verts.getD 3 (0, 0))) rel_len_tol _POS_TOL ∧
  _near (_dist (verts.getD 1 (0, 0)) (verts.getD 2 (0, 0)))
    (_dist (verts.getD 3 (0, 0)) (verts.getD 0 (0, 0))) rel_len_tol _POS_TOL

/- Ascending lexicographic order on points: the key (p[0], p[1]) used by
   the list sort in _order_loop (acad.py line 187). -/

def lexLe (p q : Point) : Prop := p.1 < q.1 ∨ (p.1 = q.1 ∧ p.2 ≤ q.2)

instance : DecidableRel lexLe := fun p q => by unfold lexLe; infer_instance

/- Ordering of candidate next points by distance to the current point
   (acad.py line 195). -/

def distTo (c p q : Point) : Prop := _dist c p ≤ _dist c q

instance : ∀ c, DecidableRel (distTo c) := fun c p q => by unfold distTo; infer_instance

/- The greedy nearest-point walk of _order_loop (acad.py lines 192-198):
   Python's stable list.sort is modelled by insertion sort, which
   computes the same stable result; pop(0) takes the head. -/

def greedyChain : ℕ → Point → List Point → List Point
  | 0, _, _ => []
  | n + 1, current, rest =>
    match List.insertionSort (distTo current) rest with
    | [] => []
    | nxt :: rest2 => nxt :: greedyChain n nxt rest2

/- _order_loop (acad.py lines 181-199). -/

def _order_loop (points : List Point) : List Point :=
  if points.length ≠ 4 then points
  else
    match List.insertionSort lexLe points with
    | [] => points
    | start :: rest => start :: greedyChain 3 start rest

/- ===================== entity model =====================
   AutoCAD ModelSpace is modelled as a list of entities.  The module's
   substring dispatch on ObjectName ("polyline" / "line" but not
   "polyline" / "circle") becomes a match on the constructor.  COM
   handles, layer colors and the result-layer of drawing calls are not
   part of any claim and are elided. -/

inductive Entity where
  | polyline (layer : String) (closed : Bool) (verts : List Point)
  | line (layer : String) (p1 p2 : Point)
  | circle (layer : String) (center : Point) (radius : ℝ)

/- Python `if layer and e.Layer != layer: continue`: an absent filter
   accepts every layer. -/

def layerOk : Option String → String → Bool
  | none, _ => true
  | some f, l => l == f

/- _polyline_vertices_2d_ordered (acad.py lines 232-240): drop the
   duplicated closing vertex when it coincides with the first one. -/

def stripClosingDup (pts : List Point) : List Point :=
  if 2 ≤ pts.length ∧
      _dist (pts.getD 0 (0, 0)) (pts.getD (pts.length - 1) (0, 0)) ≤ _POS_TOL
  then pts.dropLast else pts

/- _bbox_from_points_2d (acad.py lines 81-85). -/

def _bbox_from_points_2d : List Point → Option (Point × Point)
  | [] => none
  | p :: rest =>
    some (((rest.map Prod.fst).foldl min p.1, (rest.map Prod.snd).foldl min p.2),
          ((rest.map Prod.fst).foldl max p.1, (rest.map Prod.snd).foldl max p.2))

/- One record of find_closed_polylines' result list (acad.py 575-581). -/

structure PolyInfo where
  layer : String
  vertices : List Point
  area : ℝ
  bbox : Option (Point × Point)

/- find_closed_polylines (acad.py lines 553-582). -/

def find_closed_polylines (ents : List Entity) (layer : Option String)
    (min_vertices : ℕ) (min_area : ℝ) : List PolyInfo :=
  ents.filterMap fun e =>
    match e with
    | .polyline l closed verts =>
      if layerOk layer l then
        if closed then
          let vs := stripClosingDup verts
          if vs.length < min_vertices then none
          else if _poly_area_xy vs < min_area then none
          else some ⟨l, vs, _poly_area_xy vs, _bbox_from_points_2d vs⟩
        else none
      else none
    | _ => none

/- ===================== loop assembler =====================
   _find_loops_from_lines (acad.py lines 494-551).  Python's unordered
   sets (the per-node neighbor sets and the loop set) are modelled as
   first-occurrence deduplicated lists; no claim depends on their
   iteration order. -/

def segsOfLines (ents : List Entity) (layer : Option String) : List (Point × Point) :=
  ents.filterMap fun e =>
    match e with
    | .line l p1 p2 => if layerOk layer l then some (p1, p2) else none
    | _ => none

def segKeys (pos_tol : ℝ) (segs : List (Point × Point)) : List (Point × Point) :=
  segs.map fun s => (key_pt pos_tol s.1, key_pt pos_tol s.2)

def adjPairs (ks : List (Point × Point)) : List (Point × Point) :=
  ks.flatMap fun e => [(e.1, e.2), (e.2, e.1)]

def nbrs (ks : List (Point × Point)) (k : Point) : List Point :=
  (((adjPairs ks).filter fun e => e.1 = k).map Prod.snd).dedup

/- Lexicographic strict order of Python's tuple min on point keys. -/

def keyLt (p q : Point) : Prop := p.1 < q.1 ∨ (p.1 = q.1 ∧ p.2 < q.2)

/- Index of the lexicographically smallest of the 4 quad points, first
   index on ties (Python min over range(4) with key quad[i]). -/

def minIdx (l : List Point) : ℕ :=
  (List.range l.length).foldl
    (fun best i => if keyLt (l.getD i (0, 0)) (l.getD best (0, 0)) then i else best) 0

def canonRot (l : List Point) : List Point := l.drop (minIdx l) ++ l.take (minIdx l)

/- The 4-cycle enumeration of acad.py lines 526-543. -/

def fourCycles (ks : List (Point × Point)) : List (List Point) :=
  (ks.flatMap fun e =>
    ((nbrs ks e.2).filter fun k3 => k3 ≠ e.1).flatMap fun k3 =>
      ((nbrs ks k3).filter fun k4 => ¬ (k4 = e.2 ∨ k4 = e.1)).filterMap fun k4 =>
        if e.1 ∈ nbrs ks k4 then some (canonRot [e.1, e.2, k3, k4]) else none).dedup

def _find_loops_from_lines (segs : List (Point × Point)) (pos_tol : ℝ) : List (List Point) :=
  (fourCycles (segKeys pos_tol segs)).map _order_loop

/- ===================== square detection =====================
   find_squares (acad.py lines 584-665). -/

inductive SquareSource where
  | polyline
  | lines
deriving DecidableEq

structure SquareInfo where
  source : SquareSource
  vertices : List Point
  center : Point
  side : ℝ
  bbox : Option (Point × Point)

/- The polygon-sourced candidates of find_squares step 1. -/

def polyCandidates (ents : List Entity) (layer : Option String)
    (ang_tol_deg rel_len_tol min_side : ℝ) (allow_rectangles : Bool) : List SquareInfo :=
  (find_closed_polylines ents layer 4 (min_side * min_side)).filterMap fun poly =>
    let vs := poly.vertices
    if vs.length = 4 ∧ (_is_square_vertices vs ang_tol_deg rel_len_tol min_side ∨
        (allow_rectangles = true ∧ _is_rectangle_vertices vs ang_tol_deg rel_len_tol min_side))
    then
      some ⟨.polyline, vs, _centroid vs,
        min (_dist (vs.getD 0 (0, 0)) (vs.getD 1 (0, 0)))
          (_dist (vs.getD 1 (0, 0)) (vs.getD 2 (0, 0))), poly.bbox⟩
    else none

/- The segment-graph-sourced candidates of find_squares step 2. -/

def lineCandidates (ents : List Entity) (layer : Option String)
    (pos_tol ang_tol_deg rel_len_tol min_side : ℝ) (allow_rectangles : Bool) : List SquareInfo :=
  (_find_loops_from_lines (segsOfLines ents layer) pos_tol).filterMap fun vs =>
    if vs.length = 4 ∧ (_is_square_vertices vs ang_tol_deg rel_len_tol min_side ∨
        (allow_rectangles = true ∧ _is_rectangle_vertices vs ang_tol_deg rel_len_tol min_side))
    then
      some ⟨.lines, vs, _centroid vs,
        min (_dist (vs.getD 0 (0, 0)) (vs.getD 1 (0, 0)))
          (_dist (vs.getD 1 (0, 0)) (vs.getD 2 (0, 0))), _bbox_from_points_2d vs⟩
    else none

/- The accumulation loop shared by the two phases of find_squares: each
   append is followed by the cap test `len(squares) >= max_count`. -/

def accumulateCapped {α : Type} (max_count : ℕ) : List α → List α → List α
  | acc, [] => acc
  | acc, c :: rest =>
    if max_count ≤ (acc ++ [c]).length then acc ++ [c]
    else accumulateCapped max_count (acc ++ [c]) rest

/- find_squares itself: polygon phase, early return when the cap was hit
   inside that phase (the cap test only runs right after an append, so
   an early return implies a non-empty accumulator), then the optional
   segment-graph phase. -/

def find_squares (ents : List Entity) (layer : Option String) (include_lines : Bool)
    (pos_tol ang_tol_deg rel_len_tol min_side : ℝ) (max_count : ℕ)
    (allow_rectangles : Bool) : List SquareInfo :=
  let acc1 := accumulateCapped max_count []
    (polyCandidates ents layer ang_tol_deg rel_len_tol min_side allow_rectangles)
  if acc1 ≠ [] ∧ max_count ≤ acc1.length then acc1
  else if include_lines then
    accumulateCapped max_count acc1
      (lineCandidates ents layer pos_tol ang_tol_deg rel_len_tol min_side allow_rectangles)
  else acc1

/- The uncapped candidate sequence of find_squares, polygon-sourced
   candidates first (spec section 4.5). -/

def squareCandidates (ents : List Entity) (layer : Option String) (include_lines : Bool)
    (pos_tol ang_tol_deg rel_len_tol min_side : ℝ) (allow_rectangles : Bool) : List SquareInfo :=
  polyCandidates ents layer ang_tol_deg rel_len_tol min_side allow_rectangles ++
    if include_lines then
      lineCandidates ents layer pos_tol ang_tol_deg rel_len_tol min_side allow_rectangles
    else []

/- pick_largest_closed_polyline (acad.py lines 667-673): stable
   descending sort by enclosed polygon area, then the head. -/

def polyAreaGe (p q : PolyInfo) : Prop := q.area ≤ p.area

instance : DecidableRel polyAreaGe := fun p q => by unfold polyAreaGe; infer_instance

instance : IsTotal PolyInfo polyAreaGe := ⟨fun a b => le_total b.area a.area⟩

instance : IsTrans PolyInfo polyAreaGe := ⟨fun _ _ _ hab hbc => le_trans hbc hab⟩

def pick_largest_closed_polyline (ents : List Entity) (layer : Option String) :
    Except String PolyInfo :=
  match List.insertionSort polyAreaGe (find_closed_polylines ents layer 3 (_MIN_SIDE * _MIN_SIDE)) with
  | [] => .error "no_closed_polylines"
  | p :: _ => .ok p

/- ===================== drawing model =====================
   A drawing call is modelled by the list of points of the polyline it
   emits.  draw_polyline (acad.py lines 329-346) appends the first point
   when asked to close a contour that is not yet closed. -/

def draw_polyline (points : List Point) (closed : Bool) : List Point :=
  match points with
  | [] => []
  | p :: rest =>
    if closed = true ∧ _POS_TOL < _dist p ((p :: rest).getD ((p :: rest).length - 1) (0, 0))
    then (p :: rest) ++ [p] else p :: rest

/- draw_rectangle (acad.py lines 348-352). -/

def draw_rectangle (base : Point) (width height : ℝ) : List Point :=
  draw_polyline [(base.1, base.2), (base.1 + width, base.2),
    (base.1 + width, base.2 + height), (base.1, base.2 + height)] true

/- inscribe_squares_in_circles (acad.py lines 740-777): one axis-aligned
   square per circle passing the layer filter, half-side r / sqrt 2,
   capped by the post-append test `inserted >= max_count`.  Layer
   creation and the color argument are side effects on the drawing
   session and are elided. -/

def inscribedSquare (c : Point) (r : ℝ) : List Point :=
  draw_rectangle (c.1 - r / Real.sqrt 2, c.2 - r / Real.sqrt 2)
    (r / Real.sqrt 2 * 2) (r / Real.sqrt 2 * 2)

def inscribeLoop (layer_filter : Option String) (max_count : ℕ)
    (acc : List (List Point)) : List Entity → List (List Point)
  | [] => acc
  | e :: rest =>
    match e with
    | .circle l c r =>
      if layerOk layer_filter l then
        if max_count ≤ (acc ++ [inscribedSquare c r]).length then acc ++ [inscribedSquare c r]
        else inscribeLoop layer_filter max_count (acc ++ [inscribedSquare c r]) rest
      else inscribeLoop layer_filter max_count acc rest
    | _ => inscribeLoop layer_filter max_count acc rest

def inscribe_squares_in_circles (ents : List Entity) (layer_filter : Option String)
    (max_count : ℕ) : List (List Point) :=
  inscribeLoop layer_filter max_count [] ents

/- find_circles (acad.py lines 826-857). -/

structure CircleInfo where
  layer : String
  center : Point
  radius : ℝ
  bbox : Point × Point

def find_circles_loop (layer : Option String) (min_radius : ℝ) (max_count : ℕ)
    (acc : List CircleInfo) : List Entity → List CircleInfo
  | [] => acc
  | e :: rest =>
    match e with
    | .circle l c r =>
      if layerOk layer l then
        if r < min_radius then find_circles_loop layer min_radius max_count acc rest
        else
          if max_count ≤ (acc ++ [(⟨l, c, r, ((c.1 - r, c.2 - r), (c.1 + r, c.2 + r))⟩ : CircleInfo)]).length
          then acc ++ [(⟨l, c, r, ((c.1 - r, c.2 - r), (c.1 + r, c.2 + r))⟩ : CircleInfo)]
          else find_circles_loop layer min_radius max_count
            (acc ++ [(⟨l, c, r, ((c.1 - r, c.2 - r), (c.1 + r, c.2 + r))⟩ : CircleInfo)]) rest
      else find_circles_loop layer min_radius max_count acc rest
    | _ => find_circles_loop layer min_radius max_count acc rest

def find_circles (ents : List Entity) (layer : Option String) (min_radius : ℝ)
    (max_count : ℕ) : List CircleInfo :=
  find_circles_loop layer min_radius max_count [] ents

/- pick_largest_circle (acad.py lines 859-866): stable descending sort
   by radius, then the head; structured error when nothing matched. -/

def circleRadiusGe (a b : CircleInfo) : Prop := b.radius ≤ a.radius

instance : DecidableRel circleRadiusGe := fun a b => by unfold circleRadiusGe; infer_instance

def pick_largest_circle (ents : List Entity) (layer : Option String) :
    Except String CircleInfo :=
  match List.insertionSort circleRadiusGe (find_circles ents layer 0 5000) with
  | [] => .error "no_circles"
  | c :: _ => .ok c

/- make_snowman_from_circle (acad.py lines 868-950): the base circle is
   the largest circle on the source layer; on failure the pick's reason
   is forwarded.  The circles and lines the success path emits are
   derived from the base circle only and are elided; the observable kept
   here is the returned base circle. -/

def make_snowman_from_circle (ents : List Entity) (layer_source : Option String) :
    Except String CircleInfo :=
  match pick_largest_circle ents layer_source with
  | .error r => .error r
  | .ok base => .ok base

/- draw_triangle_roof_over_largest_square (acad.py lines 779-824). -/

def roofBboxArea (b : Point × Point) : ℝ := max 0 ((b.2.1 - b.1.1) * (b.2.2 - b.1.2))

/- Python max(seq, key): the first element attaining the maximum key. -/

def pyMaxBy {α : Type} (key : α → ℝ) (a : α) (l : List α) : α :=
  l.foldl (fun best x => if key best < key x then x else best) a

def roofPoints (bb : Point × Point) (height_ratio overhang : ℝ) : List Point :=
  let h := bb.2.2 - bb.1.2
  let apex_h := h * height_ratio
  let x_left := bb.1.1 - overhang
  let x_right := bb.2.1 + overhang
  let y_top := bb.2.2
  let x_mid := (bb.1.1 + bb.2.1) / 2
  [(x_left, y_top), (x_right, y_top), (x_mid, y_top + apex_h), (x_left, y_top)]

/- The `s.get("bbox") or _bbox_from_points_2d(...) or ((0,0),(0,0))`
   chain inside the fallback's max key. -/

def squareFallbackBbox (s : SquareInfo) : Point × Point :=
  s.bbox.getD ((_bbox_from_points_2d s.vertices).getD ((0, 0), (0, 0)))

/- The tail of the fallback branch: `best.get("bbox") or bbox-from-vertices`,
   then the no_bbox guard, then the roof emission. -/

def roofFromBest (best : SquareInfo) (height_ratio overhang : ℝ) :
    Except String (List Point) :=
  match (match best.bbox with
         | some bb => some bb
         | none => _bbox_from_points_2d best.vertices) with
  | none => .error "no_bbox"
  | some bb => .ok (draw_polyline (roofPoints bb height_ratio overhang) true)

def draw_triangle_roof_over_largest_square (ents : List Entity)
    (layer_source : Option String) (height_ratio overhang : ℝ) :
    Except String (List Point) :=
  let bbox0 : Option (Point × Point) :=
    match pick_largest_closed_polyline ents layer_source with
    | .ok p => p.bbox
    | .error _ => none
  match bbox0 with
  | some bb => .ok (draw_polyline (roofPoints bb height_ratio overhang) true)
  | none =>
    match find_squares ents layer_source true _POS_TOL _ANG_TOL_DEG _REL_LEN_TOL _MIN_SIDE
        2000 false with
    | [] => .error "no_squares"
    | s :: rest =>
      roofFromBest (pyMaxBy (fun t => roofBboxArea (squareFallbackBbox t)) s rest)
        height_ratio overhang

/- Input construction for claim C1: an axis-aligned square of side s
   centered at (cx, cy), listed counter-clockwise from the bottom-left
   corner; squareListing applies an arbitrary cyclic rotation and either
   winding direction. -/

def baseSquare (cx cy s : ℝ) : List Point :=
  [(cx - s / 2, cy - s / 2), (cx + s / 2, cy - s / 2),
   (cx + s / 2, cy + s / 2), (cx - s / 2, cy + s / 2)]

def squareListing (cx cy s : ℝ) (r : ℕ) (w : Bool) : List Point :=
  (if w then baseSquare cx cy s else (baseSquare cx cy s).reverse).rotate r

/- Concrete unit square used by counterexample inputs. -/

def unitSquare : List Point := [(0, 0), (1, 0), (1, 1), (0, 1)]

/- The circles of the model that pass the layer filter, in scan order
   (the stream consumed by inscribe_squares_in_circles). -/

def circleParams (ents : List Entity) (layer_filter : Option String) : List (Point × ℝ) :=
  ents.filterMap fun e =>
    match e with
    | .circle l c r => if layerOk layer_filter l then some (c, r) else none
    | _ => none

/- ===================== helper lemmas ===================== -/

lemma pyRound_eq_floor (x : ℝ) (h : Int.fract x < 1 / 2) : pyRound x = ⌊x⌋ := by
  unfold pyRound; rw [if_pos h]

lemma pyRound_eq_floor_add_one (x : ℝ) (h : 1 / 2 < Int.fract x) : pyRound x = ⌊x⌋ + 1 := by
  unfold pyRound; rw [if_neg (by linarith), if_pos h]

lemma pyRound_intCast (n : ℤ) : pyRound (n : ℝ) = n := by
  rw [pyRound_eq_floor _ (by rw [Int.fract_intCast]; norm_num), Int.floor_intCast]

lemma pyRound_dist (x : ℝ) : |(pyRound x : ℝ) - x| ≤ 1 / 2 := by
  have hf : (⌊x⌋ : ℝ) - x = -Int.fract x := by
    rw [← Int.self_sub_floor x]; ring
  have hf0 : (0 : ℝ) ≤ Int.fract x := Int.fract_nonneg x
  have hf1 : Int.fract x < 1 := Int.fract_lt_one x
  unfold pyRound
  split_ifs with h1 h2 h3
  · rw [hf, abs_neg, abs_of_nonneg hf0]; linarith
  · push_cast
    have h : (⌊x⌋ : ℝ) + 1 - x = 1 - Int.fract x := by
      rw [← Int.self_sub_floor x]; ring
    rw [h, abs_of_nonneg (by linarith)]; linarith
  · rw [hf, abs_neg, abs_of_nonneg hf0]; linarith
  · push_cast
    have h : (⌊x⌋ : ℝ) + 1 - x = 1 - Int.fract x := by
      rw [← Int.self_sub_floor x]; ring
    rw [h, abs_of_nonneg (by linarith)]; linarith

/- Each quantized coordinate moves by at most half a grid step. -/

lemma key_pt_coord_close (t x : ℝ) (ht : 0 < t) :
    |(pyRound (x / t) : ℝ) * t - x| ≤ t / 2 := by
  have h := pyRound_dist (x / t)
  have hx : (pyRound (x / t) : ℝ) * t - x = ((pyRound (x / t) : ℝ) - x / t) * t := by
    rw [sub_mul, div_mul_cancel₀ _ ht.ne']
  rw [hx, abs_mul, abs_of_pos ht]
  calc |(pyRound (x / t) : ℝ) - x / t| * t ≤ (1 / 2) * t := by
        exact mul_le_mul_of_nonneg_right h ht.le
    _ = t / 2 := by ring

/- A single coordinate difference is bounded by the distance. -/

lemma abs_sub_fst_le_dist (p q : Point) : |p.1 - q.1| ≤ _dist p q := by
  rw [_dist, ← Real.sqrt_sq_eq_abs]
  exact Real.sqrt_le_sqrt (by nlinarith [sq_nonneg (p.2 - q.2)])

lemma abs_sub_snd_le_dist (p q : Point) : |p.2 - q.2| ≤ _dist p q := by
  rw [_dist, ← Real.sqrt_sq_eq_abs]
  exact Real.sqrt_le_sqrt (by nlinarith [sq_nonneg (p.1 - q.1)])

lemma dist_nonneg' (p q : Point) : 0 ≤ _dist p q := Real.sqrt_nonneg _

/- Distances along grid-parallel displacements and symmetry. -/

lemma dist_horiz_abs (x1 x2 y : ℝ) : _dist (x1, y) (x2, y) = |x1 - x2| := by
  show Real.sqrt ((x1 - x2) ^ 2 + (y - y) ^ 2) = |x1 - x2|
  rw [show (x1 - x2) ^ 2 + (y - y) ^ 2 = (x1 - x2) ^ 2 by ring, Real.sqrt_sq_eq_abs]

lemma dist_vert_abs (x y1 y2 : ℝ) : _dist (x, y1) (x, y2) = |y1 - y2| := by
  show Real.sqrt ((x - x) ^ 2 + (y1 - y2) ^ 2) = |y1 - y2|
  rw [show (x - x) ^ 2 + (y1 - y2) ^ 2 = (y1 - y2) ^ 2 by ring, Real.sqrt_sq_eq_abs]

lemma dist_symm (p q : Point) : _dist p q = _dist q p := by
  unfold _dist
  congr 1
  ring

/- A clamped zero dot product yields exactly 90 degrees. -/

lemma arccos_clamp_zero_deg (x : ℝ) (h : x = 0) :
    Real.arccos (max (-1) (min 1 x)) * (180 / Real.pi) = 90 := by
  subst h
  rw [min_eq_right (by norm_num), max_eq_right (by norm_num), Real.arccos_zero]
  have hpi := Real.pi_ne_zero
  field_simp
  ring

/- The vertex angle of two perpendicular rays is 90 degrees; the
   unnormalized dot product being zero forces the normalized one to
   zero, whatever the guarded norms are. -/

lemma angle_perp (a b c : Point)
    (h : (a.1 - b.1) * (c.1 - b.1) + (a.2 - b.2) * (c.2 - b.2) = 0) :
    _angle_deg a b c = 90 := by
  have hD : (a.1 - b.1) / pyOrOne (Real.sqrt ((a.1 - b.1) ^ 2 + (a.2 - b.2) ^ 2)) *
      ((c.1 - b.1) / pyOrOne (Real.sqrt ((c.1 - b.1) ^ 2 + (c.2 - b.2) ^ 2))) +
      (a.2 - b.2) / pyOrOne (Real.sqrt ((a.1 - b.1) ^ 2 + (a.2 - b.2) ^ 2)) *
      ((c.2 - b.2) / pyOrOne (Real.sqrt ((c.1 - b.1) ^ 2 + (c.2 - b.2) ^ 2))) = 0 := by
    rw [div_mul_div_comm, div_mul_div_comm, div_add_div_same, h, zero_div]
  exact arccos_clamp_zero_deg _ hD

/- The near predicate always accepts two equal lengths. -/

lemma near_self (s rel : ℝ) : _near s s rel _POS_TOL := by
  unfold _near
  rw [sub_self, abs_zero, if_pos (by norm_num [_POS_TOL])]
  trivial

/- A 4-vertex contour with equal sides of length s at least the minimum
   and perpendicular adjacent rays at every corner passes the square
   classifier under the default tolerances. -/

lemma is_square_of (v0 v1 v2 v3 : Point) (s : ℝ)
    (h01 : _dist v0 v1 = s) (h12 : _dist v1 v2 = s)
    (h23 : _dist v2 v3 = s) (h30 : _dist v3 v0 = s)
    (hmin : _MIN_SIDE ≤ s)
    (hp0 : (v3.1 - v0.1) * (v1.1 - v0.1) + (v3.2 - v0.2) * (v1.2 - v0.2) = 0)
    (hp1 : (v0.1 - v1.1) * (v2.1 - v1.1) + (v0.2 - v1.2) * (v2.2 - v1.2) = 0)
    (hp2 : (v1.1 - v2.1) * (v3.1 - v2.1) + (v1.2 - v2.2) * (v3.2 - v2.2) = 0)
    (hp3 : (v2.1 - v3.1) * (v0.1 - v3.1) + (v2.2 - v3.2) * (v0.2 - v3.2) = 0) :
    _is_square_vertices [v0, v1, v2, v3] _ANG_TOL_DEG _REL_LEN_TOL _MIN_SIDE := by
  unfold _is_square_vertices
  simp only [List.getD_cons_zero, List.getD_cons_succ, List.length_cons, List.length_nil]
  refine ⟨by trivial, ?_, ?_, ?_⟩
  · unfold sidesOf
    rw [h01, h12, h23, h30]
    intro sd hsd
    simp only [List.mem_cons, List.not_mem_nil, or_false] at hsd
    rcases hsd with h | h | h | h <;> (rw [h]; exact not_lt.mpr hmin)
  · unfold sidesOf
    rw [h01, h12, h23, h30]
    intro sd hsd
    simp only [List.mem_cons, List.not_mem_nil, or_false] at hsd
    have hsum : ([s, s, s, s] : List ℝ).sum / 4 = s := by
      simp only [List.sum_cons, List.sum_nil]
      ring
    rw [hsum]
    rcases hsd with h | h | h | h <;> (rw [h]; exact near_self s _REL_LEN_TOL)
  · unfold angsOf
    rw [angle_perp _ _ _ hp0, angle_perp _ _ _ hp1, angle_perp _ _ _ hp2, angle_perp _ _ _ hp3]
    intro ag hag
    simp only [List.mem_cons, List.not_mem_nil, or_false] at hag
    rcases hag with h | h | h | h <;>
      (rw [h, sub_self, abs_zero]; norm_num [_ANG_TOL_DEG])

/- Explicit shoelace and centroid-numerator formulas on 4-point lists. -/

lemma shoelace4 (v0 v1 v2 v3 : Point) :
    shoelace [v0, v1, v2, v3] =
      v0.1 * v1.2 - v1.1 * v0.2 + (v1.1 * v2.2 - v2.1 * v1.2) +
      (v2.1 * v3.2 - v3.1 * v2.2) + (v3.1 * v0.2 - v0.1 * v3.2) := by
  simp only [shoelace, List.length_cons, List.length_nil]
  norm_num [List.range_succ, crossAt]
  ring

lemma cxNum4 (v0 v1 v2 v3 : Point) :
    cxNum [v0, v1, v2, v3] =
      (v0.1 + v1.1) * (v0.1 * v1.2 - v1.1 * v0.2) +
      (v1.1 + v2.1) * (v1.1 * v2.2 - v2.1 * v1.2) +
      (v2.1 + v3.1) * (v2.1 * v3.2 - v3.1 * v2.2) +
      (v3.1 + v0.1) * (v3.1 * v0.2 - v0.1 * v3.2) := by
  simp only [cxNum, List.length_cons, List.length_nil]
  norm_num [List.range_succ, crossAt]
  ring

lemma cyNum4 (v0 v1 v2 v3 : Point) :
    cyNum [v0, v1, v2, v3] =
      (v0.2 + v1.2) * (v0.1 * v1.2 - v1.1 * v0.2) +
      (v1.2 + v2.2) * (v1.1 * v2.2 - v2.1 * v1.2) +
      (v2.2 + v3.2) * (v2.1 * v3.2 - v3.1 * v2.2) +
      (v3.2 + v0.2) * (v3.1 * v0.2 - v0.1 * v3.2) := by
  simp only [cyNum, List.length_cons, List.length_nil]
  norm_num [List.range_succ, crossAt]
  ring

/- The centroid of a 4-point list whose vertex mean is c and whose
   weighted numerators satisfy the standard identity is c, in both the
   degenerate-area fallback and the weighted branch. -/

lemma centroid4 (v0 v1 v2 v3 : Point) (c : Point)
    (hmx : v0.1 + v1.1 + v2.1 + v3.1 = 4 * c.1)
    (hmy : v0.2 + v1.2 + v2.2 + v3.2 = 4 * c.2)
    (hwx : cxNum [v0, v1, v2, v3] = 6 * (shoelace [v0, v1, v2, v3] / 2) * c.1)
    (hwy : cyNum [v0, v1, v2, v3] = 6 * (shoelace [v0, v1, v2, v3] / 2) * c.2) :
    _centroid [v0, v1, v2, v3] = c := by
  unfold _centroid
  rw [if_neg (by norm_num)]
  simp only [List.map_cons, List.map_nil, List.sum_cons, List.sum_nil, List.length_cons,
    List.length_nil]
  split_ifs with hA
  · have h1 : v0.1 + (v1.1 + (v2.1 + (v3.1 + 0))) = 4 * c.1 := by linarith
    have h2 : v0.2 + (v1.2 + (v2.2 + (v3.2 + 0))) = 4 * c.2 := by linarith
    rw [h1, h2]
    norm_num
  · have hAne : shoelace [v0, v1, v2, v3] / 2 ≠ 0 := by
      intro hz
      rw [hz, abs_zero] at hA
      exact hA (by norm_num [_POS_TOL])
    have h6 : 6 * (shoelace [v0, v1, v2, v3] / 2) ≠ 0 := by
      intro hz
      rcases mul_eq_zero.mp hz with h | h
      · norm_num at h
      · exact hAne h
    rw [hwx, hwy, mul_div_cancel_left₀ _ h6, mul_div_cancel_left₀ _ h6]

/- The greedy walk of _order_loop permutes the points it consumes. -/

lemma greedyChain_perm : ∀ (n : ℕ) (current : Point) (rest : List Point),
    rest.length = n → (greedyChain n current rest).Perm rest := by
  intro n
  induction n with
  | zero =>
    intro current rest hlen
    rw [List.length_eq_zero] at hlen
    subst hlen
    simp [greedyChain]
  | succ m ih =>
    intro current rest hlen
    unfold greedyChain
    cases hs : List.insertionSort (distTo current) rest with
    | nil =>
      have hperm := List.perm_insertionSort (distTo current) rest
      rw [hs] at hperm
      have hl := hperm.length_eq
      simp [hlen] at hl
    | cons nxt rest2 =>
      have hperm := List.perm_insertionSort (distTo current) rest
      rw [hs] at hperm
      have hlen2 : rest2.length = m := by
        have hl := hperm.length_eq
        simp only [List.length_cons, hlen] at hl
        omega
      exact ((ih nxt rest2 hlen2).cons nxt).trans hperm

/- ===================== claim theorems ===================== -/

/-- C8: for all reals a, b and tolerances relTol, absTol, the near
predicate holds iff the absolute difference is at most absTol or the
difference relative to max(abs a, abs b, absTol) is at most relTol. -/
theorem claim8_near_iff (a b rel_tol abs_tol : ℝ) :
    _near a b rel_tol abs_tol ↔
      (|a - b| ≤ abs_tol ∨ |a - b| / max (max |a| |b|) abs_tol ≤ rel_tol) := by
  unfold _near
  split_ifs with h
  · simp [h]
  · simp [h]

/- Scaling an arccos value into degrees keeps it in the range 0..180. -/

lemma arccos_deg_nonneg (z : ℝ) : 0 ≤ Real.arccos z * (180 / Real.pi) :=
  mul_nonneg (Real.arccos_nonneg z) (by positivity)

lemma arccos_deg_le (z : ℝ) : Real.arccos z * (180 / Real.pi) ≤ 180 := by
  have h1 := Real.arccos_le_pi z
  have h2 : (0 : ℝ) ≤ 180 / Real.pi := by positivity
  have h3 : Real.arccos z * (180 / Real.pi) ≤ Real.pi * (180 / Real.pi) :=
    mul_le_mul_of_nonneg_right h1 h2
  have h4 : Real.pi * (180 / Real.pi) = 180 := by
    field_simp
  linarith

/-- C9: the vertex-angle function is total and always yields a value in
the range 0 to 180 degrees, for every point triple including degenerate
zero-length rays, because the dot product is clamped before acos. -/
theorem claim9_angle_range (a b c : Point) :
    0 ≤ _angle_deg a b c ∧ _angle_deg a b c ≤ 180 :=
  ⟨arccos_deg_nonneg _, arccos_deg_le _⟩

/-- C6: the centroid is the arithmetic mean for fewer than 3 points;
otherwise it is the standard area-weighted polygon centroid, except
that when the absolute signed area is at most the positional tolerance
it falls back to the arithmetic mean of the vertices. -/
theorem claim6_centroid_cases (pts : List Point) :
    (pts.length < 3 → _centroid pts = ptsMean pts) ∧
    (3 ≤ pts.length → |signedArea pts| ≤ _POS_TOL → _centroid pts = ptsMean pts) ∧
    (3 ≤ pts.length → _POS_TOL < |signedArea pts| → _centroid pts = weightedCentroid pts) := by
  refine ⟨?_, ?_, ?_⟩
  · intro hlt
    unfold _centroid ptsMean
    rw [if_pos hlt]
    cases pts with
    | nil => simp
    | cons p rest =>
      have : max 1 (p :: rest).length = (p :: rest).length := by
        exact max_eq_right (by simp)
      rw [this]
  · intro h3 habs
    unfold _centroid ptsMean
    rw [if_neg (by omega)]
    simp only []
    rw [if_pos (by exact habs)]
  · intro h3 habs
    unfold _centroid weightedCentroid signedArea
    rw [if_neg (by omega)]
    simp only []
    rw [if_neg (by exact not_le.mpr habs)]

/-- C6 witness: the three cases evaluated at concrete inputs, with the
hypotheses discharged numerically. -/
theorem claim6_centroid_cases_witness :
    _centroid [((0 : ℝ), (0 : ℝ)), (2, 0)] = ptsMean [((0 : ℝ), (0 : ℝ)), (2, 0)] ∧
    _centroid [((0 : ℝ), (0 : ℝ)), (1, 0), (2, 0)] = ptsMean [((0 : ℝ), (0 : ℝ)), (1, 0), (2, 0)] ∧
    _centroid [((0 : ℝ), (0 : ℝ)), (4, 0), (0, 4)] =
      weightedCentroid [((0 : ℝ), (0 : ℝ)), (4, 0), (0, 4)] := by
  refine ⟨(claim6_centroid_cases _).1 (by norm_num), ?_, ?_⟩
  · refine (claim6_centroid_cases _).2.1 (by norm_num) ?_
    norm_num [signedArea, shoelace, crossAt, List.range_succ, _POS_TOL]
  · refine (claim6_centroid_cases _).2.2 (by norm_num) ?_
    norm_num [signedArea, shoelace, crossAt, List.range_succ, _POS_TOL]

/-- C2 counterexample: two endpoints 0.0000002 apart, well within the
positional tolerance 0.000001, are quantized to different graph nodes
because they fall on opposite sides of a grid-cell boundary. -/
theorem claim2_counterexample :
    _dist ((4e-7 : ℝ), 0) ((6e-7 : ℝ), 0) ≤ _POS_TOL ∧
    key_pt _POS_TOL ((4e-7 : ℝ), 0) ≠ key_pt _POS_TOL ((6e-7 : ℝ), 0) := by
  constructor
  · have h : (((4e-7 : ℝ), (0 : ℝ)).1 - ((6e-7 : ℝ), (0 : ℝ)).1) ^ 2 +
        (((4e-7 : ℝ), (0 : ℝ)).2 - ((6e-7 : ℝ), (0 : ℝ)).2) ^ 2 = (2e-7) ^ 2 := by
      norm_num
    rw [_dist, h, Real.sqrt_sq (by norm_num)]
    norm_num [_POS_TOL]
  · have h4 : pyRound ((4e-7 : ℝ) / _POS_TOL) = 0 := by
      have hx : (4e-7 : ℝ) / _POS_TOL = 2 / 5 := by norm_num [_POS_TOL]
      rw [hx, pyRound_eq_floor _ (by rw [Int.fract_eq_self.mpr (by norm_num)]; norm_num)]
      rw [Int.floor_eq_zero_iff.mpr (by constructor <;> norm_num)]
    have h6 : pyRound ((6e-7 : ℝ) / _POS_TOL) = 1 := by
      have hx : (6e-7 : ℝ) / _POS_TOL = 3 / 5 := by norm_num [_POS_TOL]
      rw [hx, pyRound_eq_floor_add_one _ (by rw [Int.fract_eq_self.mpr (by norm_num)]; norm_num)]
      rw [Int.floor_eq_zero_iff.mpr (by constructor <;> norm_num)]
      norm_num
    intro hkey
    have hfst := congrArg Prod.fst hkey
    rw [key_pt, key_pt] at hfst
    simp only [h4, h6] at hfst
    norm_num [_POS_TOL] at hfst

/-- C2 amended: quantization rounds each coordinate to the nearest grid
multiple, moving it by at most half the tolerance; two endpoints within
the positional tolerance of each other may land on different graph
nodes, but their node coordinates differ by at most twice the
tolerance. -/
theorem claim2_quantize_bounds (pos_tol : ℝ) (p q : Point)
    (htol : 0 < pos_tol) (hd : _dist p q ≤ pos_tol) :
    |(key_pt pos_tol p).1 - p.1| ≤ pos_tol / 2 ∧
    |(key_pt pos_tol p).2 - p.2| ≤ pos_tol / 2 ∧
    |(key_pt pos_tol p).1 - (key_pt pos_tol q).1| ≤ 2 * pos_tol ∧
    |(key_pt pos_tol p).2 - (key_pt pos_tol q).2| ≤ 2 * pos_tol := by
  have hp1 := key_pt_coord_close pos_tol p.1 htol
  have hp2 := key_pt_coord_close pos_tol p.2 htol
  have hq1 := key_pt_coord_close pos_tol q.1 htol
  have hq2 := key_pt_coord_close pos_tol q.2 htol
  have hx := (abs_sub_fst_le_dist p q).trans hd
  have hy := (abs_sub_snd_le_dist p q).trans hd
  simp only [key_pt]
  refine ⟨hp1, hp2, ?_, ?_⟩
  · have t1 := abs_sub_le ((pyRound (p.1 / pos_tol) : ℝ) * pos_tol) q.1
      ((pyRound (q.1 / pos_tol) : ℝ) * pos_tol)
    have t2 := abs_sub_le ((pyRound (p.1 / pos_tol) : ℝ) * pos_tol) p.1 q.1
    have hq1r : |q.1 - (pyRound (q.1 / pos_tol) : ℝ) * pos_tol| ≤ pos_tol / 2 := by
      rw [abs_sub_comm]; exact hq1
    linarith
  · have t1 := abs_sub_le ((pyRound (p.2 / pos_tol) : ℝ) * pos_tol) q.2
      ((pyRound (q.2 / pos_tol) : ℝ) * pos_tol)
    have t2 := abs_sub_le ((pyRound (p.2 / pos_tol) : ℝ) * pos_tol) p.2 q.2
    have hq2r : |q.2 - (pyRound (q.2 / pos_tol) : ℝ) * pos_tol| ≤ pos_tol / 2 := by
      rw [abs_sub_comm]; exact hq2
    linarith

/-- C2 witness: the amended bounds at a concrete pair of coincident
endpoints on the unit grid. -/
theorem claim2_quantize_bounds_witness :
    |(key_pt 1 ((0 : ℝ), (0 : ℝ))).1 - 0| ≤ 1 / 2 ∧
    |(key_pt 1 ((0 : ℝ), (0 : ℝ))).2 - 0| ≤ 1 / 2 ∧
    |(key_pt 1 ((0 : ℝ), (0 : ℝ))).1 - (key_pt 1 ((0 : ℝ), (0 : ℝ))).1| ≤ 2 * 1 ∧
    |(key_pt 1 ((0 : ℝ), (0 : ℝ))).2 - (key_pt 1 ((0 : ℝ), (0 : ℝ))).2| ≤ 2 * 1 :=
  claim2_quantize_bounds 1 ((0 : ℝ), (0 : ℝ)) ((0 : ℝ), (0 : ℝ)) (by norm_num)
    (by rw [_dist]; norm_num)

/-- C10: the loop re-ordering step returns a permutation of its input
when given exactly 4 points, and returns the input unchanged for every
other length. -/
theorem claim10_order_loop_perm (points : List Point) :
    (points.length = 4 → (_order_loop points).Perm points) ∧
    (points.length ≠ 4 → _order_loop points = points) := by
  constructor
  · intro h4
    unfold _order_loop
    rw [if_neg (by simp [h4])]
    cases hs : List.insertionSort lexLe points with
    | nil => exact List.Perm.refl points
    | cons start rest =>
      have hperm := List.perm_insertionSort lexLe points
      rw [hs] at hperm
      have hlen : rest.length = 3 := by
        have h := hperm.length_eq
        simp only [List.length_cons, h4] at h
        omega
      exact ((greedyChain_perm 3 start rest hlen).cons start).trans hperm
  · intro h
    unfold _order_loop
    rw [if_pos h]

/- The capped accumulation loop is a take of the candidate stream: the
   cap test runs only after an append, so even a cap of 0 lets the
   first candidate through. -/

lemma accumulateCapped_eq {α : Type} (m : ℕ) :
    ∀ (l acc : List α), acc.length < max 1 m →
      accumulateCapped m acc l = acc ++ l.take (max 1 m - acc.length) := by
  intro l
  induction l with
  | nil =>
    intro acc h
    simp [accumulateCapped]
  | cons c rest ih =>
    intro acc h
    unfold accumulateCapped
    split_ifs with hcap
    · have hlen : (acc ++ [c]).length = acc.length + 1 := by simp
      rw [hlen] at hcap
      have hk : max 1 m - acc.length = 1 := by omega
      rw [hk, List.take_succ_cons, List.take_zero]
    · have hlen : (acc ++ [c]).length = acc.length + 1 := by simp
      have h2 : (acc ++ [c]).length < max 1 m := by
        rw [hlen]
        rw [hlen] at hcap
        omega
      rw [ih (acc ++ [c]) h2, hlen]
      have hs : max 1 m - acc.length = (max 1 m - (acc.length + 1)) + 1 := by omega
      rw [hs, List.take_succ_cons]
      simp

/- find_squares returns exactly the first max(1, maxCount) candidates,
   polygon-sourced first. -/

lemma find_squares_eq_take (ents : List Entity) (layer : Option String) (incl : Bool)
    (ptol ang rel ms : ℝ) (k : ℕ) (allow : Bool) :
    find_squares ents layer incl ptol ang rel ms k allow =
      (squareCandidates ents layer incl ptol ang rel ms allow).take (max 1 k) := by
  have hacc1 : accumulateCapped k ([] : List SquareInfo)
      (polyCandidates ents layer ang rel ms allow) =
      (polyCandidates ents layer ang rel ms allow).take (max 1 k) := by
    have h := accumulateCapped_eq k (polyCandidates ents layer ang rel ms allow) []
      (by simp only [List.length_nil]; exact lt_of_lt_of_le one_pos (le_max_left 1 k))
    simpa using h
  simp only [find_squares, squareCandidates, hacc1]
  set P := polyCandidates ents layer ang rel ms allow with hP
  set L := lineCandidates ents layer ptol ang rel ms allow with hL
  set m := max 1 k with hm
  have hkm : k ≤ m := le_max_right 1 k
  have hm1 : 1 ≤ m := le_max_left 1 k
  cases incl with
  | false =>
    simp only [Bool.false_eq_true, if_false, ite_self, List.append_nil]
  | true =>
    simp only [if_true]
    split_ifs with h1
    · -- the polygon phase hit the cap: no line phase runs
      have hne := h1.1
      have hlen := h1.2
      rw [List.length_take] at hlen
      have hPl : m ≤ P.length := by
        rcases Nat.eq_zero_or_pos k with hk0 | hkpos
        · subst hk0
          have hp : 0 < P.length := by
            by_contra hc
            push_neg at hc
            have : P = [] := List.eq_nil_of_length_eq_zero (by omega)
            rw [this, List.take_nil] at hne
            exact hne rfl
          omega
        · omega
      rw [List.take_append_eq_append_take, Nat.sub_eq_zero_of_le hPl, List.take_zero,
        List.append_nil]
    · push_neg at h1
      by_cases hne : P.take m = []
      · have hPnil : P = [] := by
          rcases List.take_eq_nil_iff.mp hne with h | h
          · omega
          · exact h
        rw [hPnil] at hne ⊢
        rw [List.take_nil]
        have hacc := accumulateCapped_eq k L []
          (by simp only [List.length_nil]; exact lt_of_lt_of_le one_pos (le_max_left 1 k))
        simpa using hacc
      · have hlt : (P.take m).length < k := h1 hne
        rw [List.length_take] at hlt
        have hPlt : P.length < m := by omega
        have hPfull : P.take m = P := List.take_of_length_le (by omega)
        rw [hPfull, accumulateCapped_eq k L P (by omega),
          List.take_append_eq_append_take]
        congr 1
        rw [List.take_of_length_le (le_of_lt hPlt)]

/- Evaluation of the polyline scan on a single closed 4-vertex
   polyline that passes every gate. -/

lemma find_closed_polylines_single (L : String) (vs : List Point) (mv : ℕ) (ma : ℝ)
    (hdup : ¬ (2 ≤ vs.length ∧
      _dist (vs.getD 0 (0, 0)) (vs.getD (vs.length - 1) (0, 0)) ≤ _POS_TOL))
    (hlen : ¬ vs.length < mv) (harea : ¬ _poly_area_xy vs < ma) :
    find_closed_polylines [Entity.polyline L true vs] none mv ma =
      [⟨L, vs, _poly_area_xy vs, _bbox_from_points_2d vs⟩] := by
  unfold find_closed_polylines
  have hstrip : stripClosingDup vs = vs := by
    unfold stripClosingDup
    rw [if_neg hdup]
  simp [layerOk, hstrip, hlen, harea]

/- No line entities means no segment-sourced candidates. -/

lemma lineCandidates_of_no_segs (ents : List Entity) (layer : Option String)
    (ptol ang rel ms : ℝ) (allow : Bool) (h : segsOfLines ents layer = []) :
    lineCandidates ents layer ptol ang rel ms allow = [] := by
  unfold lineCandidates _find_loops_from_lines fourCycles segKeys
  rw [h]
  simp

lemma segsOfLines_single_poly (L : String) (b : Bool) (vs : List Point)
    (layer : Option String) :
    segsOfLines [Entity.polyline L b vs] layer = [] := by
  simp [segsOfLines]

/- The polygon-phase candidate list for a single passing square. -/

lemma polyCandidates_single (L : String) (vs : List Point)
    (hdup : ¬ (2 ≤ vs.length ∧
      _dist (vs.getD 0 (0, 0)) (vs.getD (vs.length - 1) (0, 0)) ≤ _POS_TOL))
    (harea : ¬ _poly_area_xy vs < _MIN_SIDE * _MIN_SIDE)
    (h4 : vs.length = 4)
    (hsq : _is_square_vertices vs _ANG_TOL_DEG _REL_LEN_TOL _MIN_SIDE) :
    polyCandidates [Entity.polyline L true vs] none _ANG_TOL_DEG _REL_LEN_TOL _MIN_SIDE false =
      [⟨SquareSource.polyline, vs, _centroid vs,
        min (_dist (vs.getD 0 (0, 0)) (vs.getD 1 (0, 0)))
          (_dist (vs.getD 1 (0, 0)) (vs.getD 2 (0, 0))), _bbox_from_points_2d vs⟩] := by
  unfold polyCandidates
  rw [find_closed_polylines_single L vs 4 (_MIN_SIDE * _MIN_SIDE) hdup (by omega) harea]
  simp only [List.filterMap_cons, List.filterMap_nil]
  rw [if_pos ⟨h4, Or.inl hsq⟩]

/- find_squares on one passing closed square polyline, default limits. -/

lemma find_squares_single_poly (L : String) (vs : List Point)
    (hdup : ¬ (2 ≤ vs.length ∧
      _dist (vs.getD 0 (0, 0)) (vs.getD (vs.length - 1) (0, 0)) ≤ _POS_TOL))
    (harea : ¬ _poly_area_xy vs < _MIN_SIDE * _MIN_SIDE)
    (h4 : vs.length = 4)
    (hsq : _is_square_vertices vs _ANG_TOL_DEG _REL_LEN_TOL _MIN_SIDE) :
    find_squares [Entity.polyline L true vs] none true _POS_TOL _ANG_TOL_DEG _REL_LEN_TOL
      _MIN_SIDE 2000 false =
      [⟨SquareSource.polyline, vs, _centroid vs,
        min (_dist (vs.getD 0 (0, 0)) (vs.getD 1 (0, 0)))
          (_dist (vs.getD 1 (0, 0)) (vs.getD 2 (0, 0))), _bbox_from_points_2d vs⟩] := by
  rw [find_squares_eq_take]
  unfold squareCandidates
  rw [polyCandidates_single L vs hdup harea h4 hsq, if_pos rfl,
    lineCandidates_of_no_segs _ _ _ _ _ _ _ (segsOfLines_single_poly L true vs none)]
  simp

/-- C10 witness: re-ordering a concrete 4-point list yields a
permutation of it, and a 3-point list is returned unchanged. -/
theorem claim10_order_loop_perm_witness :
    (_order_loop [((0 : ℝ), (0 : ℝ)), (1, 0), (1, 1), (0, 1)]).Perm
      [((0 : ℝ), (0 : ℝ)), (1, 0), (1, 1), (0, 1)] ∧
    _order_loop [((0 : ℝ), (0 : ℝ)), (1, 0), (1, 1)] = [((0 : ℝ), (0 : ℝ)), (1, 0), (1, 1)] :=
  ⟨(claim10_order_loop_perm _).1 (by norm_num),
   (claim10_order_loop_perm _).2 (by norm_num)⟩

/- The unit square passes every gate of the polygon detection phase. -/

lemma unitSquare_hdup :
    ¬ (2 ≤ unitSquare.length ∧
      _dist (unitSquare.getD 0 (0, 0)) (unitSquare.getD (unitSquare.length - 1) (0, 0)) ≤
        _POS_TOL) := by
  intro h
  have hd := h.2
  simp only [unitSquare, List.getD_cons_zero, List.getD_cons_succ, List.length_cons,
    List.length_nil] at hd
  rw [dist_vert_abs] at hd
  norm_num [_POS_TOL] at hd

lemma unitSquare_area : _poly_area_xy unitSquare = 1 := by
  unfold _poly_area_xy
  rw [if_neg (by norm_num [unitSquare])]
  rw [show shoelace unitSquare = 2 by rw [show unitSquare = [((0:ℝ),(0:ℝ)), (1,0), (1,1), (0,1)] from rfl, shoelace4]; norm_num]
  norm_num

lemma unitSquare_harea : ¬ _poly_area_xy unitSquare < _MIN_SIDE * _MIN_SIDE := by
  rw [unitSquare_area]
  norm_num [_MIN_SIDE]

lemma unitSquare_is_square :
    _is_square_vertices unitSquare _ANG_TOL_DEG _REL_LEN_TOL _MIN_SIDE := by
  rw [show unitSquare = [((0:ℝ),(0:ℝ)), (1,0), (1,1), (0,1)] from rfl]
  refine is_square_of _ _ _ _ 1 ?_ ?_ ?_ ?_ ?_ ?_ ?_ ?_ ?_
  · rw [dist_horiz_abs]; norm_num
  · rw [dist_vert_abs]; norm_num
  · rw [dist_horiz_abs]; norm_num
  · rw [dist_vert_abs]; norm_num
  · norm_num [_MIN_SIDE]
  · norm_num
  · norm_num
  · norm_num
  · norm_num

/-- C4 counterexample: with max_count = 0 and a single qualifying square
in the model, find_squares still returns one square, because the cap
test only runs after the first append; so the result length exceeds the
requested cap. -/
theorem claim4_counterexample :
    (find_squares [Entity.polyline "0" true unitSquare] none true _POS_TOL _ANG_TOL_DEG
      _REL_LEN_TOL _MIN_SIDE 0 false).length = 1 := by
  rw [find_squares_eq_take]
  unfold squareCandidates
  rw [polyCandidates_single "0" unitSquare unitSquare_hdup unitSquare_harea rfl
    unitSquare_is_square,
    lineCandidates_of_no_segs _ _ _ _ _ _ _ (segsOfLines_single_poly "0" true unitSquare none)]
  simp

/-- C4 amended: find_squares with max_count = k returns at most k
results for every k at least 1 (with k = 0 the first qualifying
candidate is still returned); and whenever k is at least the total
number of qualifying candidates the full candidate list is returned, so
increasing the cap beyond that total does not change the result. -/
theorem claim4_cap (ents : List Entity) (layer : Option String) (incl : Bool)
    (ptol ang rel ms : ℝ) (allow : Bool) :
    (∀ k : ℕ, 1 ≤ k → (find_squares ents layer incl ptol ang rel ms k allow).length ≤ k) ∧
    (∀ k : ℕ, (squareCandidates ents layer incl ptol ang rel ms allow).length ≤ k →
      find_squares ents layer incl ptol ang rel ms k allow =
        squareCandidates ents layer incl ptol ang rel ms allow) := by
  constructor
  · intro k hk
    rw [find_squares_eq_take, List.length_take]
    omega
  · intro k hlen
    rw [find_squares_eq_take]
    exact List.take_of_length_le (by omega)

/-- C4 witness: the amended cap behavior at the empty model and k = 1. -/
theorem claim4_cap_witness :
    (find_squares [] none true _POS_TOL _ANG_TOL_DEG _REL_LEN_TOL _MIN_SIDE 1 false).length ≤ 1 ∧
    find_squares [] none true _POS_TOL _ANG_TOL_DEG _REL_LEN_TOL _MIN_SIDE 1 false =
      squareCandidates [] none true _POS_TOL _ANG_TOL_DEG _REL_LEN_TOL _MIN_SIDE false :=
  ⟨(claim4_cap [] none true _POS_TOL _ANG_TOL_DEG _REL_LEN_TOL _MIN_SIDE false).1 1
      (by norm_num),
   (claim4_cap [] none true _POS_TOL _ANG_TOL_DEG _REL_LEN_TOL _MIN_SIDE false).2 1
      (by simp [squareCandidates, polyCandidates, lineCandidates, find_closed_polylines,
        segsOfLines, _find_loops_from_lines, fourCycles, segKeys])⟩


/-- C7: empty-input conditions are structured not-found results with a
reason code, never faults: with no closed polylines the largest-polyline
pick reports no_closed_polylines; with no circles the largest-circle
pick and the snowman constructor report no_circles; with no closed
polylines and no qualifying squares the roof constructor reports
no_squares.  Totality of the embedded functions rules out thrown
faults. -/
theorem claim7_empty_inputs :
    (∀ (ents : List Entity) (layer : Option String),
      find_closed_polylines ents layer 3 (_MIN_SIDE * _MIN_SIDE) = [] →
        pick_largest_closed_polyline ents layer = Except.error "no_closed_polylines") ∧
    (∀ (ents : List Entity) (layer : Option String),
      find_circles ents layer 0 5000 = [] →
        pick_largest_circle ents layer = Except.error "no_circles") ∧
    (∀ (ents : List Entity) (layer : Option String),
      find_circles ents layer 0 5000 = [] →
        make_snowman_from_circle ents layer = Except.error "no_circles") ∧
    (∀ (ents : List Entity) (ls : Option String) (hr ov : ℝ),
      find_closed_polylines ents ls 3 (_MIN_SIDE * _MIN_SIDE) = [] →
      find_squares ents ls true _POS_TOL _ANG_TOL_DEG _REL_LEN_TOL _MIN_SIDE 2000 false = [] →
        draw_triangle_roof_over_largest_square ents ls hr ov = Except.error "no_squares") := by
  refine ⟨?_, ?_, ?_, ?_⟩
  · intro ents layer h
    simp [pick_largest_closed_polyline, h]
  · intro ents layer h
    simp [pick_largest_circle, h]
  · intro ents layer h
    simp [make_snowman_from_circle, pick_largest_circle, h]
  · intro ents ls hr ov h1 h2
    simp [draw_triangle_roof_over_largest_square, pick_largest_closed_polyline, h1, h2]

/-- C7 witness: the four structured errors on the empty model. -/
theorem claim7_empty_inputs_witness :
    pick_largest_closed_polyline [] none = Except.error "no_closed_polylines" ∧
    pick_largest_circle [] none = Except.error "no_circles" ∧
    make_snowman_from_circle [] none = Except.error "no_circles" ∧
    draw_triangle_roof_over_largest_square [] none (1 / 2) 0 = Except.error "no_squares" :=
  ⟨claim7_empty_inputs.1 [] none (by simp [find_closed_polylines]),
   claim7_empty_inputs.2.1 [] none (by simp [find_circles, find_circles_loop]),
   claim7_empty_inputs.2.2.1 [] none (by simp [find_circles, find_circles_loop]),
   claim7_empty_inputs.2.2.2 [] none (1 / 2) 0 (by simp [find_closed_polylines])
     (by rw [find_squares_eq_take]
         simp [squareCandidates, polyCandidates, lineCandidates, find_closed_polylines,
           segsOfLines, _find_loops_from_lines, fourCycles, segKeys])⟩


/- The inscription loop is a take of the mapped circle stream, with the
   same post-append cap behavior as the square search. -/

lemma inscribeLoop_eq (filter : Option String) (k : ℕ) :
    ∀ (ents : List Entity) (acc : List (List Point)), acc.length < max 1 k →
      inscribeLoop filter k acc ents =
        acc ++ ((circleParams ents filter).map (fun cr => inscribedSquare cr.1 cr.2)).take
          (max 1 k - acc.length) := by
  intro ents
  induction ents with
  | nil =>
    intro acc h
    simp [inscribeLoop, circleParams]
  | cons e rest ih =>
    intro acc h
    cases e with
    | polyline l b vs =>
      simp only [inscribeLoop]
      rw [ih acc h]
      simp [circleParams]
    | line l p1 p2 =>
      simp only [inscribeLoop]
      rw [ih acc h]
      simp [circleParams]
    | circle l c r =>
      simp only [inscribeLoop]
      split_ifs with hlay hcap
      · have hlen : (acc ++ [inscribedSquare c r]).length = acc.length + 1 := by simp
        rw [hlen] at hcap
        have hk : max 1 k - acc.length = 1 := by omega
        simp only [circleParams, List.filterMap_cons, hlay, if_true, List.map_cons, hk,
          List.take_succ_cons, List.take_zero]
      · have hlen : (acc ++ [inscribedSquare c r]).length = acc.length + 1 := by simp
        rw [hlen] at hcap
        have h2 : (acc ++ [inscribedSquare c r]).length < max 1 k := by
          rw [hlen]
          omega
        rw [ih _ h2, hlen]
        simp only [circleParams, List.filterMap_cons, hlay, if_true, List.map_cons]
        have hs : max 1 k - acc.length = (max 1 k - (acc.length + 1)) + 1 := by omega
        rw [hs, List.take_succ_cons]
        simp
      · rw [ih acc h]
        simp only [circleParams, List.filterMap_cons, hlay, if_false]
        rfl

/- draw_polyline appends the closing vertex when the contour is open by
   more than the positional tolerance. -/

lemma draw_polyline_closed_of_far (p0 : Point) (rest : List Point)
    (h : _POS_TOL < _dist p0 ((p0 :: rest).getD ((p0 :: rest).length - 1) (0, 0))) :
    draw_polyline (p0 :: rest) true = (p0 :: rest) ++ [p0] := by
  simp only [draw_polyline]
  rw [if_pos ⟨by trivial, h⟩]

/-- C5: inscribe_squares_in_circles emits, for each circle passing the
layer filter and within the cap, exactly one axis-aligned square with
half-side r over root 2, base corner at (cx - half, cy - half) and side
2 * half; such a square has side r * sqrt 2, its diagonal equals the
circle's diameter 2r and its center is the circle's center; in
particular one circle of radius 100 at the origin yields exactly one
square of side 100 * sqrt 2 centered at the origin. -/
theorem claim5_inscribe :
    (∀ (ents : List Entity) (filter : Option String) (k : ℕ),
      inscribe_squares_in_circles ents filter k =
        ((circleParams ents filter).map (fun cr => inscribedSquare cr.1 cr.2)).take (max 1 k)) ∧
    (∀ cx cy r : ℝ, 0 ≤ r → _POS_TOL < r * Real.sqrt 2 →
      inscribedSquare (cx, cy) r =
        [(cx - r / Real.sqrt 2, cy - r / Real.sqrt 2),
         (cx + r / Real.sqrt 2, cy - r / Real.sqrt 2),
         (cx + r / Real.sqrt 2, cy + r / Real.sqrt 2),
         (cx - r / Real.sqrt 2, cy + r / Real.sqrt 2),
         (cx - r / Real.sqrt 2, cy - r / Real.sqrt 2)] ∧
      _dist (cx - r / Real.sqrt 2, cy - r / Real.sqrt 2)
          (cx + r / Real.sqrt 2, cy - r / Real.sqrt 2) = r * Real.sqrt 2 ∧
      _dist (cx - r / Real.sqrt 2, cy - r / Real.sqrt 2)
          (cx + r / Real.sqrt 2, cy + r / Real.sqrt 2) = 2 * r ∧
      (cx - r / Real.sqrt 2 + (cx + r / Real.sqrt 2) + (cx + r / Real.sqrt 2) +
          (cx - r / Real.sqrt 2)) / 4 = cx ∧
      (cy - r / Real.sqrt 2 + (cy - r / Real.sqrt 2) + (cy + r / Real.sqrt 2) +
          (cy + r / Real.sqrt 2)) / 4 = cy) ∧
    (inscribe_squares_in_circles [Entity.circle "0" ((0 : ℝ), (0 : ℝ)) 100] none 5000 =
        [inscribedSquare ((0 : ℝ), (0 : ℝ)) 100] ∧
      _dist ((0 : ℝ) - 100 / Real.sqrt 2, (0 : ℝ) - 100 / Real.sqrt 2)
          ((0 : ℝ) + 100 / Real.sqrt 2, (0 : ℝ) - 100 / Real.sqrt 2) = 100 * Real.sqrt 2) := by
  have hs2 : Real.sqrt 2 * Real.sqrt 2 = 2 := Real.mul_self_sqrt (by norm_num)
  have hs2pos : 0 < Real.sqrt 2 := Real.sqrt_pos.mpr (by norm_num)
  have htake : ∀ (ents : List Entity) (filter : Option String) (k : ℕ),
      inscribe_squares_in_circles ents filter k =
        ((circleParams ents filter).map (fun cr => inscribedSquare cr.1 cr.2)).take (max 1 k) := by
    intro ents filter k
    unfold inscribe_squares_in_circles
    have h := inscribeLoop_eq filter k ents []
      (by simp only [List.length_nil]; exact lt_of_lt_of_le one_pos (le_max_left 1 k))
    simpa using h
  have h2h : ∀ r : ℝ, r / Real.sqrt 2 * 2 = r * Real.sqrt 2 := by
    intro r
    rw [div_mul_eq_mul_div, div_eq_iff hs2pos.ne', mul_assoc, hs2]
  have hside : ∀ cx cy r : ℝ, 0 ≤ r →
      _dist (cx - r / Real.sqrt 2, cy - r / Real.sqrt 2)
        (cx + r / Real.sqrt 2, cy - r / Real.sqrt 2) = r * Real.sqrt 2 := by
    intro cx cy r hr
    rw [dist_horiz_abs]
    rw [show cx - r / Real.sqrt 2 - (cx + r / Real.sqrt 2) = -(r / Real.sqrt 2 * 2) by ring,
      abs_neg, abs_of_nonneg (by positivity)]
    exact h2h r
  refine ⟨htake, ?_, ?_⟩
  · intro cx cy r hr hrt
    refine ⟨?_, hside cx cy r hr, ?_, by ring, by ring⟩
    · unfold inscribedSquare draw_rectangle
      have e1 : cx - r / Real.sqrt 2 + r / Real.sqrt 2 * 2 = cx + r / Real.sqrt 2 := by ring
      have e2 : cy - r / Real.sqrt 2 + r / Real.sqrt 2 * 2 = cy + r / Real.sqrt 2 := by ring
      simp only [e1, e2]
      rw [draw_polyline_closed_of_far]
      · rfl
      · simp only [List.getD_cons_zero, List.getD_cons_succ, List.length_cons, List.length_nil]
        rw [dist_vert_abs,
          show cy - r / Real.sqrt 2 - (cy + r / Real.sqrt 2) = -(r / Real.sqrt 2 * 2) by ring,
          abs_neg, abs_of_nonneg (by positivity), h2h]
        exact hrt
    · unfold _dist
      have hinner : ((cx - r / Real.sqrt 2, cy - r / Real.sqrt 2).1 -
            ((cx + r / Real.sqrt 2, cy + r / Real.sqrt 2) : Point).1) ^ 2 +
          ((cx - r / Real.sqrt 2, cy - r / Real.sqrt 2).2 -
            ((cx + r / Real.sqrt 2, cy + r / Real.sqrt 2) : Point).2) ^ 2 = (2 * r) ^ 2 := by
        have hh : (r / Real.sqrt 2) ^ 2 = r ^ 2 / 2 := by
          rw [div_pow, Real.sq_sqrt (by norm_num)]
        show (cx - r / Real.sqrt 2 - (cx + r / Real.sqrt 2)) ^ 2 +
          (cy - r / Real.sqrt 2 - (cy + r / Real.sqrt 2)) ^ 2 = (2 * r) ^ 2
        rw [show (cx - r / Real.sqrt 2 - (cx + r / Real.sqrt 2)) ^ 2 +
            (cy - r / Real.sqrt 2 - (cy + r / Real.sqrt 2)) ^ 2 =
            8 * (r / Real.sqrt 2) ^ 2 by ring, hh]
        ring
      rw [hinner, Real.sqrt_sq (by linarith)]
  · constructor
    · rw [htake]
      simp [circleParams, layerOk]
    · exact hside 0 0 100 (by norm_num)


/-- C5 witness: the geometric facts at a concrete unit-radius circle at
the origin, with both hypotheses discharged numerically. -/
theorem claim5_inscribe_witness :
    _dist ((0 : ℝ) - 1 / Real.sqrt 2, (0 : ℝ) - 1 / Real.sqrt 2)
        ((0 : ℝ) + 1 / Real.sqrt 2, (0 : ℝ) + 1 / Real.sqrt 2) = 2 * 1 :=
  (claim5_inscribe.2.1 0 0 1 (by norm_num)
    (by
      have h1 : (1 : ℝ) ≤ Real.sqrt 2 := by
        nlinarith [Real.sq_sqrt (show (0 : ℝ) ≤ 2 by norm_num), Real.sqrt_nonneg 2]
      have h2 : _POS_TOL < 1 := by norm_num [_POS_TOL]
      nlinarith)).2.2.1


/- Claim C5 extras: the cap quirk also applies to the inscription loop. -/

/-- C5 counterexample for the cap phrasing: with max_count = 0 and one
circle present, one square is still emitted, because the cap test runs
only after the append. -/
theorem claim5_counterexample :
    (inscribe_squares_in_circles [Entity.circle "0" ((0 : ℝ), (0 : ℝ)) 100] none 0).length
      = 1 := by
  unfold inscribe_squares_in_circles
  rw [inscribeLoop_eq none 0 _ []
    (by simp only [List.length_nil]; exact lt_of_lt_of_le one_pos (le_max_left 1 0))]
  simp [circleParams, layerOk]

/- Rotation of 4-element lists, concretely. -/

lemma rotate4_mod (a b c d : Point) (r : ℕ) :
    [a, b, c, d].rotate r = [a, b, c, d].rotate (r % 4) := by
  rw [← List.rotate_mod]
  simp

lemma rotate4_one (a b c d : Point) : [a, b, c, d].rotate 1 = [b, c, d, a] := by
  rw [List.rotate_eq_drop_append_take (by norm_num)]
  rfl

lemma rotate4_two (a b c d : Point) : [a, b, c, d].rotate 2 = [c, d, a, b] := by
  rw [List.rotate_eq_drop_append_take (by norm_num)]
  rfl

lemma rotate4_three (a b c d : Point) : [a, b, c, d].rotate 3 = [d, a, b, c] := by
  rw [List.rotate_eq_drop_append_take (by norm_num)]
  rfl

/- Side lengths of an axis-aligned square of side s. -/

lemma dist_pm_h (x y s : ℝ) (hs : 0 ≤ s) : _dist (x - s / 2, y) (x + s / 2, y) = s := by
  rw [dist_horiz_abs, show x - s / 2 - (x + s / 2) = -s by ring, abs_neg, abs_of_nonneg hs]

lemma dist_pm_h' (x y s : ℝ) (hs : 0 ≤ s) : _dist (x + s / 2, y) (x - s / 2, y) = s := by
  rw [dist_symm]
  exact dist_pm_h x y s hs

lemma dist_pm_v (x y s : ℝ) (hs : 0 ≤ s) : _dist (x, y - s / 2) (x, y + s / 2) = s := by
  rw [dist_vert_abs, show y - s / 2 - (y + s / 2) = -s by ring, abs_neg, abs_of_nonneg hs]

lemma dist_pm_v' (x y s : ℝ) (hs : 0 ≤ s) : _dist (x, y + s / 2) (x, y - s / 2) = s := by
  rw [dist_symm]
  exact dist_pm_v x y s hs

/- One cyclic listing of an axis-aligned square is detected by
   find_squares as a single polygon-sourced square centered at the
   square's geometric center. -/

lemma square_detect_case (v0 v1 v2 v3 : Point) (cx cy s : ℝ)
    (hs : _POS_TOL < s)
    (h01 : _dist v0 v1 = s) (h12 : _dist v1 v2 = s)
    (h23 : _dist v2 v3 = s) (h30 : _dist v3 v0 = s)
    (hp0 : (v3.1 - v0.1) * (v1.1 - v0.1) + (v3.2 - v0.2) * (v1.2 - v0.2) = 0)
    (hp1 : (v0.1 - v1.1) * (v2.1 - v1.1) + (v0.2 - v1.2) * (v2.2 - v1.2) = 0)
    (hp2 : (v1.1 - v2.1) * (v3.1 - v2.1) + (v1.2 - v2.2) * (v3.2 - v2.2) = 0)
    (hp3 : (v2.1 - v3.1) * (v0.1 - v3.1) + (v2.2 - v3.2) * (v0.2 - v3.2) = 0)
    (hsl : shoelace [v0, v1, v2, v3] = 2 * s ^ 2 ∨ shoelace [v0, v1, v2, v3] = -(2 * s ^ 2))
    (hmx : v0.1 + v1.1 + v2.1 + v3.1 = 4 * cx)
    (hmy : v0.2 + v1.2 + v2.2 + v3.2 = 4 * cy)
    (hwx : cxNum [v0, v1, v2, v3] = 6 * (shoelace [v0, v1, v2, v3] / 2) * cx)
    (hwy : cyNum [v0, v1, v2, v3] = 6 * (shoelace [v0, v1, v2, v3] / 2) * cy) :
    ∃ q : SquareInfo,
      find_squares [Entity.polyline "0" true [v0, v1, v2, v3]] none true _POS_TOL _ANG_TOL_DEG
        _REL_LEN_TOL _MIN_SIDE 2000 false = [q] ∧
      q.source = SquareSource.polyline ∧ q.center = (cx, cy) := by
  have hs6 : (1e-6 : ℝ) < s := hs
  have hs0 : 0 < s := lt_trans (by norm_num) hs6
  have hdup : ¬ (2 ≤ ([v0, v1, v2, v3] : List Point).length ∧
      _dist (([v0, v1, v2, v3] : List Point).getD 0 (0, 0))
        (([v0, v1, v2, v3] : List Point).getD (([v0, v1, v2, v3] : List Point).length - 1)
          (0, 0)) ≤ _POS_TOL) := by
    intro h
    have hd := h.2
    simp only [List.getD_cons_zero, List.getD_cons_succ, List.length_cons,
      List.length_nil] at hd
    rw [dist_symm, h30] at hd
    exact absurd hd (not_le.mpr hs)
  have harea : ¬ _poly_area_xy [v0, v1, v2, v3] < _MIN_SIDE * _MIN_SIDE := by
    have ha : _poly_area_xy [v0, v1, v2, v3] = s ^ 2 := by
      unfold _poly_area_xy
      rw [if_neg (by norm_num)]
      rcases hsl with h | h
      · rw [h, abs_of_nonneg (by positivity)]
        ring
      · rw [h, abs_neg, abs_of_nonneg (by positivity)]
        ring
    rw [ha]
    have hms : _MIN_SIDE * _MIN_SIDE = (1e-12 : ℝ) := by norm_num [_MIN_SIDE]
    rw [hms]
    intro hlt
    nlinarith [hs6, hs0]
  have hsq := is_square_of v0 v1 v2 v3 s h01 h12 h23 h30 (le_of_lt hs) hp0 hp1 hp2 hp3
  have hcent : _centroid [v0, v1, v2, v3] = (cx, cy) :=
    centroid4 v0 v1 v2 v3 (cx, cy) hmx hmy hwx hwy
  refine ⟨_, find_squares_single_poly "0" [v0, v1, v2, v3] hdup harea rfl hsq, rfl, ?_⟩
  exact hcent


/-- C1: an axis-aligned square supplied as a single closed 4-vertex
polygon is detected by find_squares as exactly one square, with
reported center exactly equal to the geometric center (hence within the
positional tolerance), for every cyclic rotation of the vertex list and
both winding directions; the side must exceed the positional tolerance
for the closing-vertex deduplication not to swallow a corner. -/
theorem claim1_square_detection (cx cy s : ℝ) (r : ℕ) (w : Bool) (hs : _POS_TOL < s) :
    ∃ q : SquareInfo,
      find_squares [Entity.polyline "0" true (squareListing cx cy s r w)] none true _POS_TOL
        _ANG_TOL_DEG _REL_LEN_TOL _MIN_SIDE 2000 false = [q] ∧
      q.source = SquareSource.polyline ∧ q.center = (cx, cy) := by
  have hs0 : 0 < s := lt_trans (by norm_num [_POS_TOL]) hs
  have hss : 0 ≤ s := hs0.le
  rcases (by omega : r % 4 = 0 ∨ r % 4 = 1 ∨ r % 4 = 2 ∨ r % 4 = 3) with hk | hk | hk | hk <;>
    cases w
  · have hlist : squareListing cx cy s r false = [(cx - s / 2, cy + s / 2), (cx + s / 2, cy + s / 2), (cx + s / 2, cy - s / 2), (cx - s / 2, cy - s / 2)] := by
      show ([(cx - s / 2, cy + s / 2), (cx + s / 2, cy + s / 2), (cx + s / 2, cy - s / 2), (cx - s / 2, cy - s / 2)] : List Point).rotate r = [(cx - s / 2, cy + s / 2), (cx + s / 2, cy + s / 2), (cx + s / 2, cy - s / 2), (cx - s / 2, cy - s / 2)]
      rw [rotate4_mod, hk, List.rotate_zero]
    rw [hlist]
    exact square_detect_case (cx - s / 2, cy + s / 2) (cx + s / 2, cy + s / 2) (cx + s / 2, cy - s / 2) (cx - s / 2, cy - s / 2) cx cy s hs
      (dist_pm_h cx (cy + s / 2) s hss) (dist_pm_v' (cx + s / 2) cy s hss) (dist_pm_h' cx (cy - s / 2) s hss) (dist_pm_v (cx - s / 2) cy s hss)
      (by ring) (by ring) (by ring) (by ring)
      (Or.inr (by rw [shoelace4]; ring))
      (by ring) (by ring)
      (by rw [cxNum4, shoelace4]; ring) (by rw [cyNum4, shoelace4]; ring)
  · have hlist : squareListing cx cy s r true = [(cx - s / 2, cy - s / 2), (cx + s / 2, cy - s / 2), (cx + s / 2, cy + s / 2), (cx - s / 2, cy + s / 2)] := by
      show ([(cx - s / 2, cy - s / 2), (cx + s / 2, cy - s / 2), (cx + s / 2, cy + s / 2), (cx - s / 2, cy + s / 2)] : List Point).rotate r = [(cx - s / 2, cy - s / 2), (cx + s / 2, cy - s / 2), (cx + s / 2, cy + s / 2), (cx - s / 2, cy + s / 2)]
      rw [rotate4_mod, hk, List.rotate_zero]
    rw [hlist]
    exact square_detect_case (cx - s / 2, cy - s / 2) (cx + s / 2, cy - s / 2) (cx + s / 2, cy + s / 2) (cx - s / 2, cy + s / 2) cx cy s hs
      (dist_pm_h cx (cy - s / 2) s hss) (dist_pm_v (cx + s / 2) cy s hss) (dist_pm_h' cx (cy + s / 2) s hss) (dist_pm_v' (cx - s / 2) cy s hss)
      (by ring) (by ring) (by ring) (by ring)
      (Or.inl (by rw [shoelace4]; ring))
      (by ring) (by ring)
      (by rw [cxNum4, shoelace4]; ring) (by rw [cyNum4, shoelace4]; ring)
  · have hlist : squareListing cx cy s r false = [(cx + s / 2, cy + s / 2), (cx + s / 2, cy - s / 2), (cx - s / 2, cy - s / 2), (cx - s / 2, cy + s / 2)] := by
      show ([(cx - s / 2, cy + s / 2), (cx + s / 2, cy + s / 2), (cx + s / 2, cy - s / 2), (cx - s / 2, cy - s / 2)] : List Point).rotate r = [(cx + s / 2, cy + s / 2), (cx + s / 2, cy - s / 2), (cx - s / 2, cy - s / 2), (cx - s / 2, cy + s / 2)]
      rw [rotate4_mod, hk, rotate4_one]
    rw [hlist]
    exact square_detect_case (cx + s / 2, cy + s / 2) (cx + s / 2, cy - s / 2) (cx - s / 2, cy - s / 2) (cx - s / 2, cy + s / 2) cx cy s hs
      (dist_pm_v' (cx + s / 2) cy s hss) (dist_pm_h' cx (cy - s / 2) s hss) (dist_pm_v (cx - s / 2) cy s hss) (dist_pm_h cx (cy + s / 2) s hss)
      (by ring) (by ring) (by ring) (by ring)
      (Or.inr (by rw [shoelace4]; ring))
      (by ring) (by ring)
      (by rw [cxNum4, shoelace4]; ring) (by rw [cyNum4, shoelace4]; ring)
  · have hlist : squareListing cx cy s r true = [(cx + s / 2, cy - s / 2), (cx + s / 2, cy + s / 2), (cx - s / 2, cy + s / 2), (cx - s / 2, cy - s / 2)] := by
      show ([(cx - s / 2, cy - s / 2), (cx + s / 2, cy - s / 2), (cx + s / 2, cy + s / 2), (cx - s / 2, cy + s / 2)] : List Point).rotate r = [(cx + s / 2, cy - s / 2), (cx + s / 2, cy + s / 2), (cx - s / 2, cy + s / 2), (cx - s / 2, cy - s / 2)]
      rw [rotate4_mod, hk, rotate4_one]
    rw [hlist]
    exact square_detect_case (cx + s / 2, cy - s / 2) (cx + s / 2, cy + s / 2) (cx - s / 2, cy + s / 2) (cx - s / 2, cy - s / 2) cx cy s hs
      (dist_pm_v (cx + s / 2) cy s hss) (dist_pm_h' cx (cy + s / 2) s hss) (dist_pm_v' (cx - s / 2) cy s hss) (dist_pm_h cx (cy - s / 2) s hss)
      (by ring) (by ring) (by ring) (by ring)
      (Or.inl (by rw [shoelace4]; ring))
      (by ring) (by ring)
      (by rw [cxNum4, shoelace4]; ring) (by rw [cyNum4, shoelace4]; ring)
  · have hlist : squareListing cx cy s r false = [(cx + s / 2, cy - s / 2), (cx - s / 2, cy - s / 2), (cx - s / 2, cy + s / 2), (cx + s / 2, cy + s / 2)] := by
      show ([(cx - s / 2, cy + s / 2), (cx + s / 2, cy + s / 2), (cx + s / 2, cy - s / 2), (cx - s / 2, cy - s / 2)] : List Point).rotate r = [(cx + s / 2, cy - s / 2), (cx - s / 2, cy - s / 2), (cx - s / 2, cy + s / 2), (cx + s / 2, cy + s / 2)]
      rw [rotate4_mod, hk, rotate4_two]
    rw [hlist]
    exact square_detect_case (cx + s / 2, cy - s / 2) (cx - s / 2, cy - s / 2) (cx - s / 2, cy + s / 2) (cx + s / 2, cy + s / 2) cx cy s hs
      (dist_pm_h' cx (cy - s / 2) s hss) (dist_pm_v (cx - s / 2) cy s hss) (dist_pm_h cx (cy + s / 2) s hss) (dist_pm_v' (cx + s / 2) cy s hss)
      (by ring) (by ring) (by ring) (by ring)
      (Or.inr (by rw [shoelace4]; ring))
      (by ring) (by ring)
      (by rw [cxNum4, shoelace4]; ring) (by rw [cyNum4, shoelace4]; ring)
  · have hlist : squareListing cx cy s r true = [(cx + s / 2, cy + s / 2), (cx - s / 2, cy + s / 2), (cx - s / 2, cy - s / 2), (cx + s / 2, cy - s / 2)] := by
      show ([(cx - s / 2, cy - s / 2), (cx + s / 2, cy - s / 2), (cx + s / 2, cy + s / 2), (cx - s / 2, cy + s / 2)] : List Point).rotate r = [(cx + s / 2, cy + s / 2), (cx - s / 2, cy + s / 2), (cx - s / 2, cy - s / 2), (cx + s / 2, cy - s / 2)]
      rw [rotate4_mod, hk, rotate4_two]
    rw [hlist]
    exact square_detect_case (cx + s / 2, cy + s / 2) (cx - s / 2, cy + s / 2) (cx - s / 2, cy - s / 2) (cx + s / 2, cy - s / 2) cx cy s hs
      (dist_pm_h' cx (cy + s / 2) s hss) (dist_pm_v' (cx - s / 2) cy s hss) (dist_pm_h cx (cy - s / 2) s hss) (dist_pm_v (cx + s / 2) cy s hss)
      (by ring) (by ring) (by ring) (by ring)
      (Or.inl (by rw [shoelace4]; ring))
      (by ring) (by ring)
      (by rw [cxNum4, shoelace4]; ring) (by rw [cyNum4, shoelace4]; ring)
  · have hlist : squareListing cx cy s r false = [(cx - s / 2, cy - s / 2), (cx - s / 2, cy + s / 2), (cx + s / 2, cy + s / 2), (cx + s / 2, cy - s / 2)] := by
      show ([(cx - s / 2, cy + s / 2), (cx + s / 2, cy + s / 2), (cx + s / 2, cy - s / 2), (cx - s / 2, cy - s / 2)] : List Point).rotate r = [(cx - s / 2, cy - s / 2), (cx - s / 2, cy + s / 2), (cx + s / 2, cy + s / 2), (cx + s / 2, cy - s / 2)]
      rw [rotate4_mod, hk, rotate4_three]
    rw [hlist]
    exact square_detect_case (cx - s / 2, cy - s / 2) (cx - s / 2, cy + s / 2) (cx + s / 2, cy + s / 2) (cx + s / 2, cy - s / 2) cx cy s hs
      (dist_pm_v (cx - s / 2) cy s hss) (dist_pm_h cx (cy + s / 2) s hss) (dist_pm_v' (cx + s / 2) cy s hss) (dist_pm_h' cx (cy - s / 2) s hss)
      (by ring) (by ring) (by ring) (by ring)
      (Or.inr (by rw [shoelace4]; ring))
      (by ring) (by ring)
      (by rw [cxNum4, shoelace4]; ring) (by rw [cyNum4, shoelace4]; ring)
  · have hlist : squareListing cx cy s r true = [(cx - s / 2, cy + s / 2), (cx - s / 2, cy - s / 2), (cx + s / 2, cy - s / 2), (cx + s / 2, cy + s / 2)] := by
      show ([(cx - s / 2, cy - s / 2), (cx + s / 2, cy - s / 2), (cx + s / 2, cy + s / 2), (cx - s / 2, cy + s / 2)] : List Point).rotate r = [(cx - s / 2, cy + s / 2), (cx - s / 2, cy - s / 2), (cx + s / 2, cy - s / 2), (cx + s / 2, cy + s / 2)]
      rw [rotate4_mod, hk, rotate4_three]
    rw [hlist]
    exact square_detect_case (cx - s / 2, cy + s / 2) (cx - s / 2, cy - s / 2) (cx + s / 2, cy - s / 2) (cx + s / 2, cy + s / 2) cx cy s hs
      (dist_pm_v' (cx - s / 2) cy s hss) (dist_pm_h cx (cy - s / 2) s hss) (dist_pm_v (cx + s / 2) cy s hss) (dist_pm_h' cx (cy + s / 2) s hss)
      (by ring) (by ring) (by ring) (by ring)
      (Or.inl (by rw [shoelace4]; ring))
      (by ring) (by ring)
      (by rw [cxNum4, shoelace4]; ring) (by rw [cyNum4, shoelace4]; ring)

/-- C1 witness: the detection at a concrete unit square centered at the
origin, listed counter-clockwise with no rotation. -/
theorem claim1_square_detection_witness :
    ∃ q : SquareInfo,
      find_squares [Entity.polyline "0" true (squareListing 0 0 1 0 true)] none true _POS_TOL
        _ANG_TOL_DEG _REL_LEN_TOL _MIN_SIDE 2000 false = [q] ∧
      q.source = SquareSource.polyline ∧ q.center = ((0 : ℝ), (0 : ℝ)) :=
  claim1_square_detection 0 0 1 0 true (by norm_num [_POS_TOL])


/- Python max(seq, key) returns a maximizing element of the sequence. -/

lemma pyMaxBy_spec {α : Type} (key : α → ℝ) :
    ∀ (l : List α) (a : α), pyMaxBy key a l ∈ a :: l ∧ key a ≤ key (pyMaxBy key a l) ∧
      ∀ x ∈ l, key x ≤ key (pyMaxBy key a l) := by
  intro l
  induction l with
  | nil =>
    intro a
    exact ⟨List.mem_cons_self a [], le_refl _, by intro x hx; simp at hx⟩
  | cons b t ih =>
    intro a
    have hstep : pyMaxBy key a (b :: t) = pyMaxBy key (if key a < key b then b else a) t := by
      simp [pyMaxBy]
    obtain ⟨hmem, hge, hall⟩ := ih (if key a < key b then b else a)
    rw [hstep]
    split_ifs at hmem hge hall ⊢ with hab
    · refine ⟨?_, le_trans (le_of_lt hab) hge, ?_⟩
      · rcases List.mem_cons.mp hmem with h | h
        · rw [h]; simp
        · simp [h]
      · intro x hx
        rcases List.mem_cons.mp hx with h | h
        · rw [h]; exact hge
        · exact hall x h
    · refine ⟨?_, hge, ?_⟩
      · rcases List.mem_cons.mp hmem with h | h
        · rw [h]; simp
        · simp [h]
      · intro x hx
        rcases List.mem_cons.mp hx with h | h
        · rw [h]; exact le_trans (not_lt.mp hab) hge
        · exact hall x h

/- Every record the polyline scan returns has a bounding box, because
   min_vertices of at least 1 forces a nonempty vertex list. -/

lemma find_closed_polylines_bbox (ents : List Entity) (layer : Option String)
    (mv : ℕ) (ma : ℝ) (hmv : 1 ≤ mv) :
    ∀ p ∈ find_closed_polylines ents layer mv ma, ∃ bb, p.bbox = some bb := by
  intro p hp
  rw [find_closed_polylines, List.mem_filterMap] at hp
  obtain ⟨e, _, hfe⟩ := hp
  cases e with
  | polyline l closed verts =>
    dsimp only [] at hfe
    split_ifs at hfe with h1 h2 h3 h4
    injection hfe with hfe
    subst hfe
    cases hvs : stripClosingDup verts with
    | nil =>
      rw [hvs] at h3
      simp at h3
      omega
    | cons v vrest =>
      exact ⟨_, rfl⟩
  | line l p1 p2 => simp at hfe
  | circle l c r => simp at hfe

/-- C3 amended: the roof's primary selection among closed polylines is
largest by enclosed polygon area (not bounding-box area), and the roof
is built over that polyline's bounding box; when no closed polyline
exists it falls back to the full detection pipeline with rectangles NOT
allowed (squares only), choosing the detected square with the largest
bounding-box area. -/
theorem claim3_roof_selection (ents : List Entity) (ls : Option String) (hr ov : ℝ) :
    (find_closed_polylines ents ls 3 (_MIN_SIDE * _MIN_SIDE) ≠ [] →
      ∃ p bb, p ∈ find_closed_polylines ents ls 3 (_MIN_SIDE * _MIN_SIDE) ∧
        (∀ q ∈ find_closed_polylines ents ls 3 (_MIN_SIDE * _MIN_SIDE), q.area ≤ p.area) ∧
        p.bbox = some bb ∧
        draw_triangle_roof_over_largest_square ents ls hr ov =
          Except.ok (draw_polyline (roofPoints bb hr ov) true)) ∧
    (find_closed_polylines ents ls 3 (_MIN_SIDE * _MIN_SIDE) = [] →
      (find_squares ents ls true _POS_TOL _ANG_TOL_DEG _REL_LEN_TOL _MIN_SIDE 2000 false = [] →
        draw_triangle_roof_over_largest_square ents ls hr ov = Except.error "no_squares") ∧
      (find_squares ents ls true _POS_TOL _ANG_TOL_DEG _REL_LEN_TOL _MIN_SIDE 2000 false ≠ [] →
        ∃ best, best ∈ find_squares ents ls true _POS_TOL _ANG_TOL_DEG _REL_LEN_TOL _MIN_SIDE
            2000 false ∧
          (∀ t ∈ find_squares ents ls true _POS_TOL _ANG_TOL_DEG _REL_LEN_TOL _MIN_SIDE
            2000 false,
            roofBboxArea (squareFallbackBbox t) ≤ roofBboxArea (squareFallbackBbox best)) ∧
          draw_triangle_roof_over_largest_square ents ls hr ov = roofFromBest best hr ov)) := by
  constructor
  · intro hne
    cases hsort : List.insertionSort polyAreaGe
        (find_closed_polylines ents ls 3 (_MIN_SIDE * _MIN_SIDE)) with
    | nil =>
      exfalso
      have hperm := List.perm_insertionSort polyAreaGe
        (find_closed_polylines ents ls 3 (_MIN_SIDE * _MIN_SIDE))
      rw [hsort] at hperm
      exact hne hperm.symm.eq_nil
    | cons p rest =>
      have hperm := List.perm_insertionSort polyAreaGe
        (find_closed_polylines ents ls 3 (_MIN_SIDE * _MIN_SIDE))
      rw [hsort] at hperm
      have hmem : p ∈ find_closed_polylines ents ls 3 (_MIN_SIDE * _MIN_SIDE) :=
        hperm.subset (List.mem_cons_self p rest)
      have hmax : ∀ q ∈ find_closed_polylines ents ls 3 (_MIN_SIDE * _MIN_SIDE),
          q.area ≤ p.area := by
        intro q hq
        have hq2 : q ∈ p :: rest := hperm.mem_iff.mpr hq
        rcases List.mem_cons.mp hq2 with h | h
        · rw [h]
        · have hsorted := List.sorted_insertionSort polyAreaGe
            (find_closed_polylines ents ls 3 (_MIN_SIDE * _MIN_SIDE))
          rw [hsort] at hsorted
          exact (List.sorted_cons.mp hsorted).1 q h
      obtain ⟨bb, hbb⟩ := find_closed_polylines_bbox ents ls 3 (_MIN_SIDE * _MIN_SIDE)
        (by norm_num) p hmem
      refine ⟨p, bb, hmem, hmax, hbb, ?_⟩
      simp [draw_triangle_roof_over_largest_square, pick_largest_closed_polyline, hsort, hbb]
  · intro hempty
    have hpick : pick_largest_closed_polyline ents ls = Except.error "no_closed_polylines" := by
      simp [pick_largest_closed_polyline, hempty]
    constructor
    · intro hsq
      simp [draw_triangle_roof_over_largest_square, hpick, hsq]
    · intro hsqne
      cases hsq : find_squares ents ls true _POS_TOL _ANG_TOL_DEG _REL_LEN_TOL _MIN_SIDE
          2000 false with
      | nil => exact absurd hsq hsqne
      | cons sq rest =>
        obtain ⟨hmem, hge, hall⟩ :=
          pyMaxBy_spec (fun t => roofBboxArea (squareFallbackBbox t)) rest sq
        refine ⟨pyMaxBy (fun t => roofBboxArea (squareFallbackBbox t)) sq rest, hmem, ?_, ?_⟩
        · intro t ht
          rcases List.mem_cons.mp ht with h | h
          · rw [h]; exact hge
          · exact hall t h
        · simp [draw_triangle_roof_over_largest_square, hpick, hsq]

/-- C3 witness: the amended fallback at the empty model reports the
structured no_squares result. -/
theorem claim3_roof_selection_witness :
    draw_triangle_roof_over_largest_square [] none 1 0 = Except.error "no_squares" :=
  ((claim3_roof_selection [] none 1 0).2 (by simp [find_closed_polylines])).1
    (by rw [find_squares_eq_take]
        simp [squareCandidates, polyCandidates, lineCandidates, find_closed_polylines,
          segsOfLines, _find_loops_from_lines, fourCycles, segKeys])


/- Scan step for one passing closed polyline ahead of more entities. -/

lemma find_closed_polylines_cons_poly (L : String) (vs : List Point) (rest : List Entity)
    (mv : ℕ) (ma : ℝ)
    (hdup : ¬ (2 ≤ vs.length ∧
      _dist (vs.getD 0 (0, 0)) (vs.getD (vs.length - 1) (0, 0)) ≤ _POS_TOL))
    (hlen : ¬ vs.length < mv) (harea : ¬ _poly_area_xy vs < ma) :
    find_closed_polylines (Entity.polyline L true vs :: rest) none mv ma =
      ⟨L, vs, _poly_area_xy vs, _bbox_from_points_2d vs⟩ ::
        find_closed_polylines rest none mv ma := by
  unfold find_closed_polylines
  simp only [List.filterMap_cons]
  have hstrip : stripClosingDup vs = vs := by
    unfold stripClosingDup
    rw [if_neg hdup]
  simp [layerOk, hstrip, hlen, harea]

/- Concrete facts about the triangle (0,0)-(10,0)-(10,8) and the square
   (20,0)-(27,0)-(27,7)-(20,7) used to refute the bbox-area selection
   policy. -/

lemma triangle_area_eval :
    _poly_area_xy [((0 : ℝ), (0 : ℝ)), (10, 0), (10, 8)] = 40 := by
  unfold _poly_area_xy
  rw [if_neg (by norm_num)]
  rw [show shoelace [((0 : ℝ), (0 : ℝ)), (10, 0), (10, 8)] = 80 by
    norm_num [shoelace, crossAt, List.range_succ]]
  norm_num

lemma square7_area_eval :
    _poly_area_xy [((20 : ℝ), (0 : ℝ)), (27, 0), (27, 7), (20, 7)] = 49 := by
  unfold _poly_area_xy
  rw [if_neg (by norm_num)]
  rw [show shoelace [((20 : ℝ), (0 : ℝ)), (27, 0), (27, 7), (20, 7)] = 98 by
    rw [shoelace4]; norm_num]
  norm_num

lemma triangle_hdup :
    ¬ (2 ≤ ([((0 : ℝ), (0 : ℝ)), (10, 0), (10, 8)] : List Point).length ∧
      _dist (([((0 : ℝ), (0 : ℝ)), (10, 0), (10, 8)] : List Point).getD 0 (0, 0))
        (([((0 : ℝ), (0 : ℝ)), (10, 0), (10, 8)] : List Point).getD
          (([((0 : ℝ), (0 : ℝ)), (10, 0), (10, 8)] : List Point).length - 1) (0, 0)) ≤
        _POS_TOL) := by
  intro h
  have hd := h.2
  simp only [List.getD_cons_zero, List.getD_cons_succ, List.length_cons,
    List.length_nil] at hd
  have heq : _dist ((0 : ℝ), (0 : ℝ)) ((10 : ℝ), (8 : ℝ)) = Real.sqrt 164 := by
    unfold _dist
    norm_num
  rw [heq] at hd
  have hge : (1 : ℝ) ≤ Real.sqrt 164 := by
    rw [← Real.sqrt_one]
    exact Real.sqrt_le_sqrt (by norm_num)
  rw [_POS_TOL] at hd
  linarith

lemma square7_hdup :
    ¬ (2 ≤ ([((20 : ℝ), (0 : ℝ)), (27, 0), (27, 7), (20, 7)] : List Point).length ∧
      _dist (([((20 : ℝ), (0 : ℝ)), (27, 0), (27, 7), (20, 7)] : List Point).getD 0 (0, 0))
        (([((20 : ℝ), (0 : ℝ)), (27, 0), (27, 7), (20, 7)] : List Point).getD
          (([((20 : ℝ), (0 : ℝ)), (27, 0), (27, 7), (20, 7)] : List Point).length - 1)
          (0, 0)) ≤ _POS_TOL) := by
  intro h
  have hd := h.2
  simp only [List.getD_cons_zero, List.getD_cons_succ, List.length_cons,
    List.length_nil] at hd
  rw [dist_vert_abs] at hd
  norm_num [_POS_TOL] at hd

lemma triangle_bbox_eval :
    _bbox_from_points_2d [((0 : ℝ), (0 : ℝ)), (10, 0), (10, 8)] =
      some (((0 : ℝ), (0 : ℝ)), ((10 : ℝ), (8 : ℝ))) := by
  simp only [_bbox_from_points_2d, List.map_cons, List.map_nil, List.foldl_cons,
    List.foldl_nil]
  norm_num [min_def, max_def]

lemma square7_bbox_eval :
    _bbox_from_points_2d [((20 : ℝ), (0 : ℝ)), (27, 0), (27, 7), (20, 7)] =
      some (((20 : ℝ), (0 : ℝ)), ((27 : ℝ), (7 : ℝ))) := by
  simp only [_bbox_from_points_2d, List.map_cons, List.map_nil, List.foldl_cons,
    List.foldl_nil]
  norm_num [min_def, max_def]

/-- C3 counterexample: two closed polylines, a triangle with bounding
box (0,0)-(10,8) (bbox area 80, polygon area 40) and a square with
bounding box (20,0)-(27,7) (bbox area 49, polygon area 49).  Under the
claimed largest-by-bounding-box-area policy the triangle would be
selected; the code selects by enclosed polygon area and emits the roof
over the square's bounding box (eaves at y = 7 spanning x in [20,27]),
refuting the claimed selection policy. -/
theorem claim3_counterexample :
    find_closed_polylines
        [Entity.polyline "0" true [((0 : ℝ), (0 : ℝ)), (10, 0), (10, 8)],
         Entity.polyline "0" true [((20 : ℝ), (0 : ℝ)), (27, 0), (27, 7), (20, 7)]] none 3
        (_MIN_SIDE * _MIN_SIDE) =
      [⟨"0", [((0 : ℝ), (0 : ℝ)), (10, 0), (10, 8)], 40,
         some (((0 : ℝ), (0 : ℝ)), ((10 : ℝ), (8 : ℝ)))⟩,
       ⟨"0", [((20 : ℝ), (0 : ℝ)), (27, 0), (27, 7), (20, 7)], 49,
         some (((20 : ℝ), (0 : ℝ)), ((27 : ℝ), (7 : ℝ)))⟩] ∧
    roofBboxArea (((0 : ℝ), (0 : ℝ)), ((10 : ℝ), (8 : ℝ))) >
      roofBboxArea (((20 : ℝ), (0 : ℝ)), ((27 : ℝ), (7 : ℝ))) ∧
    draw_triangle_roof_over_largest_square
        [Entity.polyline "0" true [((0 : ℝ), (0 : ℝ)), (10, 0), (10, 8)],
         Entity.polyline "0" true [((20 : ℝ), (0 : ℝ)), (27, 0), (27, 7), (20, 7)]] none
        (1 / 2) 0 =
      Except.ok [((20 : ℝ), (7 : ℝ)), (27, 7), (47 / 2, 21 / 2), (20, 7)] := by
  have htri : ¬ _poly_area_xy [((0 : ℝ), (0 : ℝ)), (10, 0), (10, 8)] <
      _MIN_SIDE * _MIN_SIDE := by
    rw [triangle_area_eval]
    norm_num [_MIN_SIDE]
  have hsq7 : ¬ _poly_area_xy [((20 : ℝ), (0 : ℝ)), (27, 0), (27, 7), (20, 7)] <
      _MIN_SIDE * _MIN_SIDE := by
    rw [square7_area_eval]
    norm_num [_MIN_SIDE]
  have hfcp : find_closed_polylines
      [Entity.polyline "0" true [((0 : ℝ), (0 : ℝ)), (10, 0), (10, 8)],
       Entity.polyline "0" true [((20 : ℝ), (0 : ℝ)), (27, 0), (27, 7), (20, 7)]] none 3
      (_MIN_SIDE * _MIN_SIDE) =
      [⟨"0", [((0 : ℝ), (0 : ℝ)), (10, 0), (10, 8)], 40,
         some (((0 : ℝ), (0 : ℝ)), ((10 : ℝ), (8 : ℝ)))⟩,
       ⟨"0", [((20 : ℝ), (0 : ℝ)), (27, 0), (27, 7), (20, 7)], 49,
         some (((20 : ℝ), (0 : ℝ)), ((27 : ℝ), (7 : ℝ)))⟩] := by
    rw [find_closed_polylines_cons_poly "0" [((0 : ℝ), (0 : ℝ)), (10, 0), (10, 8)] _ 3 _
        triangle_hdup (by norm_num) htri,
      find_closed_polylines_cons_poly "0" [((20 : ℝ), (0 : ℝ)), (27, 0), (27, 7), (20, 7)] _
        3 _ square7_hdup (by norm_num) hsq7,
      show find_closed_polylines [] none 3 (_MIN_SIDE * _MIN_SIDE) = [] from by
        simp [find_closed_polylines],
      triangle_area_eval, square7_area_eval, triangle_bbox_eval, square7_bbox_eval]
  refine ⟨hfcp, by norm_num [roofBboxArea], ?_⟩
  have hsort : List.insertionSort polyAreaGe
      [(⟨"0", [((0 : ℝ), (0 : ℝ)), (10, 0), (10, 8)], 40,
         some (((0 : ℝ), (0 : ℝ)), ((10 : ℝ), (8 : ℝ)))⟩ : PolyInfo),
       ⟨"0", [((20 : ℝ), (0 : ℝ)), (27, 0), (27, 7), (20, 7)], 49,
         some (((20 : ℝ), (0 : ℝ)), ((27 : ℝ), (7 : ℝ)))⟩] =
      [⟨"0", [((20 : ℝ), (0 : ℝ)), (27, 0), (27, 7), (20, 7)], 49,
         some (((20 : ℝ), (0 : ℝ)), ((27 : ℝ), (7 : ℝ)))⟩,
       ⟨"0", [((0 : ℝ), (0 : ℝ)), (10, 0), (10, 8)], 40,
         some (((0 : ℝ), (0 : ℝ)), ((10 : ℝ), (8 : ℝ)))⟩] := by
    simp only [List.insertionSort, List.orderedInsert]
    rw [if_neg (by norm_num [polyAreaGe])]
  have hpick : pick_largest_closed_polyline
      [Entity.polyline "0" true [((0 : ℝ), (0 : ℝ)), (10, 0), (10, 8)],
       Entity.polyline "0" true [((20 : ℝ), (0 : ℝ)), (27, 0), (27, 7), (20, 7)]] none =
      Except.ok ⟨"0", [((20 : ℝ), (0 : ℝ)), (27, 0), (27, 7), (20, 7)], 49,
        some (((20 : ℝ), (0 : ℝ)), ((27 : ℝ), (7 : ℝ)))⟩ := by
    unfold pick_largest_closed_polyline
    rw [hfcp, hsort]
  have hrp : roofPoints (((20 : ℝ), (0 : ℝ)), ((27 : ℝ), (7 : ℝ))) (1 / 2) 0 =
      [((20 : ℝ), (7 : ℝ)), (27, 7), (47 / 2, 21 / 2), (20, 7)] := by
    simp only [roofPoints]
    norm_num
  have hdp : draw_polyline [((20 : ℝ), (7 : ℝ)), (27, 7), (47 / 2, 21 / 2), (20, 7)] true =
      [((20 : ℝ), (7 : ℝ)), (27, 7), (47 / 2, 21 / 2), (20, 7)] := by
    simp only [draw_polyline]
    rw [if_neg]
    intro h
    have hd := h.2
    simp only [List.getD_cons_zero, List.getD_cons_succ, List.length_cons,
      List.length_nil] at hd
    rw [show _dist ((20 : ℝ), (7 : ℝ)) ((20 : ℝ), (7 : ℝ)) = 0 from by
      unfold _dist; norm_num] at hd
    norm_num [_POS_TOL] at hd
  simp only [draw_triangle_roof_over_largest_square, hpick]
  rw [hrp, hdp]


end


